import Mathlib

/-!
# Hoaxify backend: token service, middlewares and routers

A shallow embedding of the parts of the express-tdd backend that the
statements below are about.  Database tables are lists of rows in storage
order, every service function takes the tables it reads and returns the
tables it leaves behind together with its result, and the clock readings a
function takes (`Date.now()`, `new Date()`) are explicit arguments in
milliseconds since the epoch.
-/

namespace Hoaxify

/-! ## Errors -/

/-- What a service function or middleware can fail with.  The first three are
the exception classes the routers and middlewares construct (of their files
only `ValidationException.js` is among the sources; the other two are known by
their constructor calls, `ForbiddenException` with or without a message key);
`TypeError` is the error the
JavaScript runtime raises when a property of `null` is read or written;
`QueryError` is what the ORM raises for an `undefined` value in a `where`
clause; `BcryptError` is what `bcrypt.hash` rejects with when its data is not a
string; `ENOENT` is the file-system error for a path that does not exist.
`NotFoundException`, `EmailException`, `InvalidTokenException` and
`FileSizeException` are further exception classes the services and routers
construct; `UniqueConstraintError` is the database's rejection of a second row
with a unique value; `SMTPError` is the mail transport's rejection;
`DatabaseError` is the database's rejection of a query that names a column the
table does not have; `ForeignKeyConstraintError` is its rejection of a foreign
key that points to no row. -/
inductive Exception where
  | AuthenticationException
  | ForbiddenException (message : Option String)
  | ValidationException (errors : List String)
  | TypeError
  | QueryError
  | BcryptError
  | ENOENT
  | NotFoundException (message : String)
  | EmailException
  | InvalidTokenException
  | FileSizeException
  | UniqueConstraintError
  | SMTPError
  | DatabaseError
  | ForeignKeyConstraintError
  deriving DecidableEq, Repr

deriving instance DecidableEq for Except

/-! ## Token table (`src/models/Token.js`, `src/service/tokenService.js`) -/

/-- One row of the `tokens` table: the primary key, the token string, the
foreign key to the user and the last-used time. -/
structure TokenRow where
  id : Nat
  token : String
  userId : Nat
  lastUsedAt : Int
  deriving DecidableEq, Repr

/-- The object `verify` resolves to: `{ id: userId }`. -/
structure AuthenticatedUser where
  id : Nat
  deriving DecidableEq, Repr

/-- `ONE_WEEK_IN_MILLIS = 7 * 24 * 60 * 60 * 1000`. -/
def ONE_WEEK_IN_MILLIS : Int := 7 * 24 * 60 * 60 * 1000

/-- The `where` clause of the lookup in `verify`: the token string is equal and
`lastUsedAt >= oneWeekAgo`. -/
def unexpired (oneWeekAgo : Int) (token : String) (r : TokenRow) : Bool :=
  r.token == token && decide (oneWeekAgo ≤ r.lastUsedAt)

/-- `tokenInDB.update({ lastUsedAt })`: an `UPDATE` keyed by the primary key of
the instance. -/
def updateLastUsedAt (pk : Nat) (lastUsedAt : Int) (tokens : List TokenRow) : List TokenRow :=
  tokens.map fun r => if r.id = pk then { r with lastUsedAt := lastUsedAt } else r

/-- `verify(token)`.  `now` is the reading of `Date.now()` on line 18 and
`now2` the reading of `new Date()` on line 28.  `Token.findOne` gives the first
matching row or `null`; the code uses the result without a check, so on `null`
the call `tokenInDB.update` raises a `TypeError`. -/
def verify (now now2 : Int) (token : String) (tokens : List TokenRow) :
    Except Exception AuthenticatedUser × List TokenRow :=
  let oneWeekAgo := now - ONE_WEEK_IN_MILLIS
  match tokens.find? (unexpired oneWeekAgo token) with
  | none => (.error .TypeError, tokens)
  | some tokenInDB =>
    (.ok { id := tokenInDB.userId }, updateLastUsedAt tokenInDB.id now2 tokens)

/-- `deleteToken(token)`: `Token.destroy({ where: { token } })`. -/
def deleteToken (token : String) (tokens : List TokenRow) : List TokenRow :=
  tokens.filter fun r => !(r.token == token)

/-- `clearTokens(userId)`: `Token.destroy({ where: { userId } })`. -/
def clearTokens (userId : Nat) (tokens : List TokenRow) : List TokenRow :=
  tokens.filter fun r => !(r.userId == userId)

/-- The `lastUsedAt` column of the row with primary key `pk`, if there is one. -/
def lastUsedAtOf (pk : Nat) (tokens : List TokenRow) : Option Int :=
  (tokens.find? fun r => r.id == pk).map TokenRow.lastUsedAt

/-! ## Bearer-token middleware (`src/middlewares/tokenAuthentication.js`) -/

/-- `s.substring(start)` on a string of characters that are one UTF-16 unit
each: the string without its first `start` characters. -/
def substring (s : String) (start : Nat) : String := ⟨s.data.drop start⟩

/-- What `tokenAuthentication` leaves behind: the argument it passed to
`verify` (if it called it), `req.authenticatedUser` and the token table. -/
structure AuthenticationState where
  verifyArgument : Option String
  authenticatedUser : Option AuthenticatedUser
  tokens : List TokenRow
  deriving DecidableEq, Repr

/-- `tokenAuthentication(req, res, next)`.  `authorization` is
`req.headers.authorization` (`none` when the header is absent); the guard
`if (authorization)` also skips the empty string.  The token is
`authorization.substring(6)`; an error of `verify` is caught and logged, and
`next()` is called in every case. -/
def tokenAuthentication (now now2 : Int) (authorization : Option String)
    (tokens : List TokenRow) : AuthenticationState :=
  match authorization with
  | none => { verifyArgument := none, authenticatedUser := none, tokens := tokens }
  | some header =>
    if header = "" then
      { verifyArgument := none, authenticatedUser := none, tokens := tokens }
    else
      let token := substring header 6
      match verify now now2 token tokens with
      | (.ok user, tokens2) =>
        { verifyArgument := some token, authenticatedUser := some user, tokens := tokens2 }
      | (.error _, tokens2) =>
        { verifyArgument := some token, authenticatedUser := none, tokens := tokens2 }

/-- The handler of `POST /logout` in `src/routes/authRouter.js`: the token is
`authorization.substring(7)` and is passed to `deleteToken`. -/
def logout (authorization : Option String) (tokens : List TokenRow) : List TokenRow :=
  match authorization with
  | none => tokens
  | some header =>
    if header = "" then tokens else deleteToken (substring header 7) tokens

/-! ## User table and password reset (`src/service/userService.js`,
`src/middlewares/passwordResetTokenValidator.js`) -/

/-- Modelled from the spec: one row of the `users` table (`src/models/User.js`
is not among the sources): id, username, unique e-mail, password hash,
`inactive` flag, nullable activation token, nullable password-reset token and
optional profile image file name. -/
structure UserRow where
  id : Nat
  username : String
  email : String
  password : String
  inactive : Bool
  activationToken : Option String
  passwordResetToken : Option String
  image : Option String
  deriving DecidableEq, Repr

/-- A field of a JSON request body as the handlers read it: the key is absent
(`undefined`), its value is `null`, or its value is a string. -/
inductive BodyField where
  | absent
  | null
  | str (value : String)
  deriving DecidableEq, Repr

/-- The body of `PUT /password`: `{ passwordResetToken, password }`. -/
structure UpdateRequest where
  passwordResetToken : BodyField
  password : BodyField
  deriving DecidableEq, Repr

/-- `findByEmail(email)`: `User.findOne({ where: { email } })`. -/
def findByEmail (email : String) (users : List UserRow) : Option UserRow :=
  users.find? fun u => u.email == email

/-- `findByPasswordResetToken(token)`:
`User.findOne({ where: { passwordResetToken: token } })`.  The ORM turns a
`null` value into `IS NULL`, which selects the users that hold no reset token,
and rejects an `undefined` value with an error. -/
def findByPasswordResetToken (token : BodyField) (users : List UserRow) :
    Except Exception (Option UserRow) :=
  match token with
  | .absent => .error .QueryError
  | .null => .ok (users.find? fun u => u.passwordResetToken == none)
  | .str t => .ok (users.find? fun u => u.passwordResetToken == some t)

/-- `passwordResetTokenValidator(req, res, next)`: `.ok ()` stands for the bare
`next()` that passes the request on, `.error` for `next(error)` or a rejected
lookup. -/
def passwordResetTokenValidator (body : UpdateRequest) (users : List UserRow) :
    Except Exception Unit :=
  match findByPasswordResetToken body.passwordResetToken users with
  | .error e => .error e
  | .ok none => .error (.ForbiddenException (some "unauthorized_password_reset"))
  | .ok (some _) => .ok ()

/-- The columns `updatePassword` assigns before `user.save()`. -/
def resetCredentials (hash : String) (u : UserRow) : UserRow :=
  { u with password := hash, passwordResetToken := none, inactive := false,
           activationToken := none }

/-- `updatePassword(updateRequest)`.  `hash` is `bcrypt.hash(·, 10)` with the
salt this call draws; it rejects a value that is not a string.  `user.save()`
is an `UPDATE` keyed by the primary key, and `clearTokens(user.id)` follows it.
When the lookup gives `null`, the assignment `user.password = hash` raises a
`TypeError`. -/
def updatePassword (hash : String → String) (updateRequest : UpdateRequest)
    (users : List UserRow) (tokens : List TokenRow) :
    Except Exception Unit × List UserRow × List TokenRow :=
  match findByPasswordResetToken updateRequest.passwordResetToken users with
  | .error e => (.error e, users, tokens)
  | .ok found =>
    match updateRequest.password with
    | .absent => (.error .BcryptError, users, tokens)
    | .null => (.error .BcryptError, users, tokens)
    | .str password =>
      match found with
      | none => (.error .TypeError, users, tokens)
      | some user =>
        (.ok (),
         users.map (fun u => if u.id = user.id then resetCredentials (hash password) u else u),
         clearTokens user.id tokens)

/-! ## Password validation chain (`src/routes/userRouter.js`, lines 167-175) -/

/-- The characters `.` does not match in a regular expression without the `s`
flag: line feed, carriage return, U+2028 and U+2029. -/
def isLineTerminator (c : Char) : Bool :=
  c == '\n' || c == '\r' || c == Char.ofNat 0x2028 || c == Char.ofNat 0x2029

/-- The lookahead `(?=.*X)` at the start of the input, `X` a character class:
some character of the class is reached over characters that `.` matches. -/
def lookahead (cls : Char → Bool) : List Char → Bool
  | [] => false
  | c :: rest => cls c || (!isLineTerminator c && lookahead cls rest)

/-- The class `[a-z]`. -/
def isLowerAZ (c : Char) : Bool := decide ('a' ≤ c) && decide (c ≤ 'z')

/-- The class `[A-Z]`. -/
def isUpperAZ (c : Char) : Bool := decide ('A' ≤ c) && decide (c ≤ 'Z')

/-- The class `\d`. -/
def isDigit09 (c : Char) : Bool := decide ('0' ≤ c) && decide (c ≤ '9')

/-- The test `/^(?=.*[a-z])(?=.*[A-Z])(?=.*\d).*$/`: the three lookaheads, then
`.*$`, which reaches the end of the input only over characters `.` matches. -/
def matchesPasswordPattern (s : String) : Bool :=
  lookahead isLowerAZ s.data && lookahead isUpperAZ s.data && lookahead isDigit09 s.data
    && s.data.all (fun c => !isLineTerminator c)

/-- The two presentation selectors U+FE0E and U+FE0F. -/
def isPresentationSelector (c : Char) : Bool :=
  c == Char.ofNat 0xFE0E || c == Char.ofNat 0xFE0F

/-- The length `isLength` of the validator library compares with its bounds:
the number of UTF-16 units less the surrogate pairs, that is the number of code
points, less the presentation selectors U+FE0E and U+FE0F in the string. -/
def validatorLength (s : String) : Nat :=
  s.data.length - (s.data.filter isPresentationSelector).length

/-- The chain `check('password').notEmpty().bail().isLength({ min: 6 }).bail()
.matches(...)` with its messages; the validator reads an absent or `null`
field as the empty string. -/
def validatePassword (password : BodyField) : List String :=
  let value := match password with
    | .absent => ""
    | .null => ""
    | .str s => s
  if value = "" then ["password_null"]
  else if validatorLength value < 6 then ["password_size"]
  else if !matchesPasswordPattern value then ["password_pattern"]
  else []

/-- The reply `res.json({ message })`. -/
structure Message where
  message : String
  deriving DecidableEq, Repr

/-- The handler chain of `userRouter.put('/password', ...)`:
`passwordResetTokenValidator`, the password check, then the final handler. -/
def putPassword (hash : String → String) (body : UpdateRequest)
    (users : List UserRow) (tokens : List TokenRow) :
    Except Exception Message × List UserRow × List TokenRow :=
  match passwordResetTokenValidator body users with
  | .error e => (.error e, users, tokens)
  | .ok () =>
    match validatePassword body.password with
    | [] =>
      match updatePassword hash body users tokens with
      | (.error e, users2, tokens2) => (.error e, users2, tokens2)
      | (.ok (), users2, tokens2) => (.ok { message := "Password updated" }, users2, tokens2)
    | errors => (.error (.ValidationException errors), users, tokens)

/-! ## Route table of the user router (`src/routes/userRouter.js`) -/

/-- HTTP methods the routers register. -/
inductive Method where
  | GET | POST | PUT | DELETE
  deriving DecidableEq, Repr

/-- One segment of a route path: a literal (`password`) or a parameter (`:id`). -/
inductive Segment where
  | literal (text : String)
  | parameter (name : String)
  deriving DecidableEq, Repr

/-- The final handlers of the user router, named after what they call. -/
inductive UserHandler where
  | getAllUsers | getUser | updateUser | saveUser | activateUser | deleteUser
  | passwordResetRequest | updatePassword
  deriving DecidableEq, Repr

/-- A registered route: method, path and handler. -/
structure Route where
  method : Method
  path : List Segment
  handler : UserHandler
  deriving DecidableEq, Repr

/-- The routes of `userRouter` in the order the file registers them. -/
def userRouter : List Route :=
  [ { method := .GET, path := [], handler := .getAllUsers },
    { method := .GET, path := [.parameter "id"], handler := .getUser },
    { method := .PUT, path := [.parameter "id"], handler := .updateUser },
    { method := .POST, path := [], handler := .saveUser },
    { method := .POST, path := [.literal "token", .parameter "token"], handler := .activateUser },
    { method := .DELETE, path := [.parameter "id"], handler := .deleteUser },
    { method := .POST, path := [.literal "password"], handler := .passwordResetRequest },
    { method := .PUT, path := [.literal "password"], handler := .updatePassword } ]

/-- Matching a request path, given as its non-empty segments, against a route
path: a literal matches its own text without regard to ASCII case (the router
is not case sensitive), a parameter matches any segment and binds it. -/
def matchPath : List Segment → List String → Option (List (String × String))
  | [], [] => some []
  | .literal text :: pattern, s :: rest =>
    if s.data.map Char.toLower = text.data.map Char.toLower then matchPath pattern rest else none
  | .parameter name :: pattern, s :: rest =>
    if s = "" then none else (matchPath pattern rest).map fun ps => (name, s) :: ps
  | _, _ => none

/-- The router runs the first registered route whose method and path match;
no handler of `userRouter` hands the request on with a bare `next()`, so that
route answers the request. -/
def dispatch (routes : List Route) (method : Method) (path : List String) :
    Option (UserHandler × List (String × String)) :=
  match routes with
  | [] => none
  | r :: rest =>
    if r.method = method then
      match matchPath r.path path with
      | some params => some (r.handler, params)
      | none => dispatch rest method path
    else dispatch rest method path

/-- `Number(id)` for a route parameter made of ASCII decimal digits (exact
below 2^53); any other parameter is read as `NaN`, here `none`.  Strings in
other numeric notations (signs, exponents, hexadecimal, surrounding blanks) are
outside this reading. -/
def Number (id : String) : Option Nat :=
  if id.data.all isDigit09 then
    some (id.data.foldl (fun n c => 10 * n + (c.toNat - '0'.toNat)) 0)
  else none

/-- The guard that opens the final handler of `userRouter.put('/:id', ...)`:
`!authenticatedUser || authenticatedUser.id !== Number(id)` answers with
`ForbiddenException('unauthorized_user_update')`; `rest` is what the handler
does behind the guard (validation result and `updateUser`). -/
def putUser {α : Type} (authenticatedUser : Option AuthenticatedUser) (id : String)
    (rest : Except Exception α) : Except Exception α :=
  match authenticatedUser with
  | none => .error (.ForbiddenException (some "unauthorized_user_update"))
  | some user =>
    if some user.id ≠ Number id then
      .error (.ForbiddenException (some "unauthorized_user_update"))
    else rest

/-- What the user router answers to a `PUT` request: the route is chosen by
`dispatch`, the `/:id` route runs `putUser` and the `/password` route runs
`putPassword`. -/
def userRouterPut (hash : String → String) (authenticatedUser : Option AuthenticatedUser)
    (path : List String) (body : UpdateRequest)
    (rest : Except Exception Message × List UserRow × List TokenRow)
    (users : List UserRow) (tokens : List TokenRow) :
    Option (UserHandler × (Except Exception Message × List UserRow × List TokenRow)) :=
  match dispatch userRouter .PUT path with
  | some (.updateUser, params) =>
    match params.lookup "id" with
    | some id =>
      match putUser authenticatedUser id rest.1 with
      | .error e => some (.updateUser, (.error e, users, tokens))
      | .ok _ => some (.updateUser, rest)
    | none => none
  | some (.updatePassword, _) => some (.updatePassword, putPassword hash body users tokens)
  | _ => none

/-! ## Random strings (`src/shared/generator.js`) -/

/-- One lower-case hexadecimal digit. -/
def hexDigit (n : Nat) : Char := "0123456789abcdef".data.getD n '0'

/-- `buffer.toString('hex')`: two digits for every byte. -/
def toHex : List (Fin 256) → List Char
  | [] => []
  | b :: rest => hexDigit (b.val / 16) :: hexDigit (b.val % 16) :: toHex rest

/-- `randomString(length)`: `randomBytes(length).toString('hex').slice(0,
length)`; `bytes` is what `randomBytes(length)` returns in this call, a buffer
of `length` bytes. -/
def randomString (bytes : List (Fin 256)) (length : Nat) : String :=
  ⟨(toHex bytes).take length⟩

/-! ## Login (`src/routes/authRouter.js`, `createToken`) -/

/-- `createToken(user)`: `const token = randomString(32)`, then
`Token.create({ token, userId: user.id, lastUsedAt: new Date() })`, and the
token is returned.  `bytes` is what `randomBytes(32)` returns inside
`randomString`, `pk` the primary key the database gives the new row and `now`
the reading of `new Date()`. -/
def createToken (bytes : List (Fin 256)) (pk : Nat) (now : Int) (user : UserRow)
    (tokens : List TokenRow) : String × List TokenRow :=
  let token := randomString bytes 32
  (token, tokens ++ [{ id := pk, token := token, userId := user.id, lastUsedAt := now }])

/-- The values that occur in the JSON body of the login reply. -/
inductive Json where
  | null
  | number (n : Nat)
  | string (s : String)
  deriving DecidableEq, Repr

/-- A nullable text column as a JSON value. -/
def Json.ofColumn : Option String → Json
  | none => .null
  | some s => .string s

/-- The handler of `authRouter.post('/', check('email').isEmail(), ...)`.
`isEmail` is the validator of the external library and `compare` is
`bcrypt.compare`; `bytes`, `pk` and `now` are passed on to `createToken`.  The
reply body is the list of its keys and values in the order the object literal
writes them. -/
def login (isEmail : String → Bool) (compare : String → String → Bool)
    (bytes : List (Fin 256)) (pk : Nat) (now : Int) (email password : String)
    (users : List UserRow) (tokens : List TokenRow) :
    Except Exception (List (String × Json)) × List TokenRow :=
  if !isEmail email then (.error .AuthenticationException, tokens)
  else
    match findByEmail email users with
    | none => (.error .AuthenticationException, tokens)
    | some user =>
      if !compare password user.password then (.error .AuthenticationException, tokens)
      else if user.inactive then (.error (.ForbiddenException none), tokens)
      else
        let created := createToken bytes pk now user tokens
        (.ok [("id", .number user.id), ("username", .string user.username),
              ("image", Json.ofColumn user.image), ("token", .string created.1)],
         created.2)

/-! ## Attachments (`src/models/FileAttachment.js`, `src/service/fileService.js`) -/

/-- One row of the `hoaxes` table: the primary key, the columns `content` and
`timestamp` that `Hoax.init` declares, and the foreign key `userId`.  Every
column but the key is nullable. -/
structure HoaxRow where
  id : Nat
  content : Option String
  timestamp : Option Int
  userId : Option Nat
  deriving DecidableEq, Repr

/-- One row of the `fileAttachments` table; `hoaxId` is the nullable foreign
key added by `Hoax.hasOne(FileAttachment, ...)`. -/
structure FileAttachmentRow where
  id : Nat
  filename : String
  uploadDate : Int
  fileType : Option String
  hoaxId : Option Nat
  deriving DecidableEq, Repr

/-- JavaScript truthiness of the `hoaxId` column: `null` and `0` are falsy. -/
def truthy : Option Nat → Bool
  | none => false
  | some 0 => false
  | some _ => true

/-- `associateFileToHoax(attachmentId, hoaxId)`: returns without a change when
`findByPk` gives `null` or when `attachment.hoaxId` is truthy, otherwise runs
`attachment.update({ hoaxId })`.  An update that changes no value issues no
query; otherwise it is an `UPDATE` keyed by the primary key, and since `hoaxId`
is a foreign key to the `hoaxes` table the database rejects it, leaving the row
as it was, when no hoax has that id. -/
def associateFileToHoax (attachmentId hoaxId : Nat) (hoaxes : List HoaxRow)
    (attachments : List FileAttachmentRow) : Except Exception Unit × List FileAttachmentRow :=
  match attachments.find? (fun a => a.id == attachmentId) with
  | none => (.ok (), attachments)
  | some attachment =>
    if truthy attachment.hoaxId then (.ok (), attachments)
    else if attachment.hoaxId == some hoaxId then (.ok (), attachments)
    else if hoaxes.any (fun h => h.id == hoaxId) then
      (.ok (), attachments.map fun a =>
        if a.id = attachment.id then { a with hoaxId := some hoaxId } else a)
    else (.error .ForeignKeyConstraintError, attachments)

/-- `ONE_DAY = 24 * 60 * 60 * 1000`. -/
def ONE_DAY : Int := 24 * 60 * 60 * 1000

/-- The `where` clause of the sweep: `uploadDate < oneDayOld` and `hoaxId IS NULL`. -/
def unused (oneDayOld : Int) (a : FileAttachmentRow) : Bool :=
  decide (a.uploadDate < oneDayOld) && a.hoaxId.isNone

/-- The `for` loop of the sweep over the rows it selected.  `files` are the
names present in the attachment folder.  `fs.promises.unlink` rejects with
`ENOENT` when the file is not there, which ends the run; otherwise the file is
removed and `attachment.destroy()` deletes the row with that primary key. -/
def sweep : List FileAttachmentRow → List FileAttachmentRow → List String →
    Except Exception Unit × List FileAttachmentRow × List String
  | [], attachments, files => (.ok (), attachments, files)
  | attachment :: selected, attachments, files =>
    if attachment.filename ∈ files then
      sweep selected (attachments.filter fun a => !(a.id == attachment.id))
        (files.filter fun f => !(f == attachment.filename))
    else (.error .ENOENT, attachments, files)

/-- One run of the callback `removeUnusedAttachments` hands to `setInterval`;
`now` is the reading of `Date.now()`. -/
def removeUnusedAttachments (now : Int) (attachments : List FileAttachmentRow)
    (files : List String) : Except Exception Unit × List FileAttachmentRow × List String :=
  let oneDayOld := now - ONE_DAY
  sweep (attachments.filter (unused oneDayOld)) attachments files

/-! ## Token cleanup (`scheduleCleanup` in `src/service/tokenService.js`) -/

/-- One run of the callback `scheduleCleanup` hands to `setInterval`:
`Token.destroy({ where: { lastUsedAt: { [Op.lt]: oneWeekAgo } } })`; `now` is
the reading of `Date.now()`. -/
def scheduleCleanup (now : Int) (tokens : List TokenRow) : List TokenRow :=
  let oneWeekAgo := now - ONE_WEEK_IN_MILLIS
  tokens.filter fun r => !decide (r.lastUsedAt < oneWeekAgo)

/-! ## E-mail (`src/service/emailService.js`) -/

/-- A message handed to `transporter.sendMail`: its `from`, `to`, `subject` and
`html` members. -/
structure Mail where
  sender : String
  recipient : String
  subject : String
  html : String
  deriving DecidableEq, Repr

/-- The message `sendAccountActivation` builds. -/
def activationMail (email token : String) : Mail :=
  { sender := "My app <info@my-app.com>",
    recipient := email,
    subject := "Account activation",
    html := "\n    <div>\n      <p>Please, click on the link below to activate your account</p>\n      </div>\n      <div>\n      <a href=\"http://localhost:8080/#/account-activation="
      ++ token ++ "\">Activate</a>\n      </div>\n    " }

/-- The message `sendPasswordReset` builds. -/
def passwordResetMail (email token : String) : Mail :=
  { sender := "My app <info@my-app.com>",
    recipient := email,
    subject := "Password reset",
    html := "\n    <div>\n      <p>Please, click on the link below to reset your password</p>\n      </div>\n      <div>\n      <a href=\"http://localhost:8080/#/password-reset="
      ++ token ++ "\">Reset</a>\n      </div>\n    " }

/-- `transporter.sendMail(message)`: `transport` tells whether the mail server
accepts the message; an accepted message is added to the mails sent. -/
def sendMail (transport : Mail → Bool) (message : Mail) (outbox : List Mail) :
    Except Exception Unit × List Mail :=
  if transport message then (.ok (), outbox ++ [message]) else (.error .SMTPError, outbox)

/-- `sendAccountActivation(email, token)`.  The function does not await
`sendMail` itself but returns its promise, so the caller's `await` settles the
way `sendMail` does. -/
def sendAccountActivation (transport : Mail → Bool) (email token : String)
    (outbox : List Mail) : Except Exception Unit × List Mail :=
  sendMail transport (activationMail email token) outbox

/-- `sendPasswordReset(email, token)`: awaits `transporter.sendMail`. -/
def sendPasswordReset (transport : Mail → Bool) (email token : String)
    (outbox : List Mail) : Except Exception Unit × List Mail :=
  sendMail transport (passwordResetMail email token) outbox

/-! ## Registration, activation and reset request (`src/service/userService.js`) -/

/-- The body of `POST /users` as `saveUser` reads it. -/
structure Registration where
  username : String
  email : String
  password : String
  deriving DecidableEq, Repr

/-- Modelled from the spec: `User.create` of `src/models/User.js`, which is not
among the sources.  The e-mail is unique, so a second row with a stored e-mail
is rejected; a new user is created inactive, without reset token and without
image.  `pk` is the primary key the database gives the row. -/
def User.create (pk : Nat) (username email password activationToken : String)
    (users : List UserRow) : Except Exception (List UserRow) :=
  if users.any (fun u => u.email == email) then .error .UniqueConstraintError
  else
    .ok (users ++ [{ id := pk, username := username, email := email, password := password,
                     inactive := true, activationToken := some activationToken,
                     passwordResetToken := none, image := none }])

/-- `saveUser(body)`.  `hash` is `bcrypt.hash(·, 10)`, `bytes` the random
bytes drawn for `randomString(16)`.  The row is created inside a transaction;
when the activation mail is sent the transaction is committed, otherwise it is
rolled back, which leaves the table as it was, and `EmailException` is thrown.
A rejection by `User.create` itself is outside the `try` and is passed on. -/
def saveUser (hash : String → String) (bytes : List (Fin 256)) (pk : Nat)
    (transport : Mail → Bool) (body : Registration) (users : List UserRow)
    (outbox : List Mail) : Except Exception Unit × List UserRow × List Mail :=
  let activationToken := randomString bytes 16
  match User.create pk body.username body.email (hash body.password) activationToken users with
  | .error e => (.error e, users, outbox)
  | .ok inTransaction =>
    match sendAccountActivation transport body.email activationToken outbox with
    | (.ok (), outbox2) => (.ok (), inTransaction, outbox2)
    | (.error _, outbox2) => (.error .EmailException, users, outbox2)

/-- `activateUser(token)`.  `user.update({ activationToken: null, inactive:
false })` is an `UPDATE` keyed by the primary key; the function does not await
it, and the table returned is the one after that `UPDATE` has run. -/
def activateUser (token : String) (users : List UserRow) :
    Except Exception Unit × List UserRow :=
  match users.find? (fun u => u.activationToken == some token) with
  | none => (.error .InvalidTokenException, users)
  | some user =>
    (.ok (), users.map fun u =>
      if u.id = user.id then { u with activationToken := none, inactive := false } else u)

/-- `passwordResetRequest(email)`: the new token is saved with `user.save()`
before the mail is sent, and a failure of the mail is rethrown as
`EmailException` without undoing the save. -/
def passwordResetRequest (bytes : List (Fin 256)) (transport : Mail → Bool) (email : String)
    (users : List UserRow) (outbox : List Mail) :
    Except Exception Unit × List UserRow × List Mail :=
  match findByEmail email users with
  | none => (.error (.NotFoundException "email_not_inuse"), users, outbox)
  | some user =>
    let passwordResetToken := randomString bytes 16
    let saved := users.map fun u =>
      if u.id = user.id then { u with passwordResetToken := some passwordResetToken } else u
    match sendPasswordReset transport email passwordResetToken outbox with
    | (.ok (), outbox2) => (.ok (), saved, outbox2)
    | (.error _, outbox2) => (.error .EmailException, saved, outbox2)

/-! ## Hoaxes (`src/models/Hoax.js`, `src/service/hoaxService.js`) -/

/-- A value in the object handed to `Hoax.create`. -/
inductive Value where
  | text (s : String)
  | millis (t : Int)
  | key (n : Nat)
  deriving DecidableEq, Repr

/-- `Hoax.create(values)`: the new row takes, for each attribute of the model
(`content`, `timestamp`, `userId`), the member of `values` with that name; a
member whose name is not an attribute of the model is dropped, and an attribute
without a member stays `NULL`.  `pk` is the primary key of the new row. -/
def Hoax.create (pk : Nat) (values : List (String × Value)) (hoaxes : List HoaxRow) :
    HoaxRow × List HoaxRow :=
  let row : HoaxRow :=
    { id := pk,
      content := match values.lookup "content" with
        | some (.text s) => some s
        | _ => none,
      timestamp := match values.lookup "timestamp" with
        | some (.millis t) => some t
        | _ => none,
      userId := match values.lookup "userId" with
        | some (.key n) => some n
        | _ => none }
  (row, hoaxes ++ [row])

/-- The body of `POST /hoaxes` as `saveHoax` reads it. -/
structure HoaxBody where
  content : String
  fileAttachment : Option Nat
  deriving DecidableEq, Repr

/-- `saveHoax(body, user)`: the object `{ content: body.content, timestamps:
Date.now(), userId: user.id }` goes to `Hoax.create`, and a truthy
`body.fileAttachment` is associated with the new hoax, a rejection of that call
being passed on.  `now` is the reading of `Date.now()`. -/
def saveHoax (now : Int) (pk : Nat) (body : HoaxBody) (user : AuthenticatedUser)
    (hoaxes : List HoaxRow) (attachments : List FileAttachmentRow) :
    Except Exception Unit × List HoaxRow × List FileAttachmentRow :=
  let hoax := [("content", Value.text body.content), ("timestamps", Value.millis now),
               ("userId", Value.key user.id)]
  let created := Hoax.create pk hoax hoaxes
  if truthy body.fileAttachment then
    match body.fileAttachment with
    | some attachmentId =>
      let associated := associateFileToHoax attachmentId created.1.id created.2 attachments
      (associated.1, created.2, associated.2)
    | none => (.ok (), created.2, attachments)
  else (.ok (), created.2, attachments)

/-- `deleteAttachment(filename)`: `access` then `unlink`, with every error
caught and logged; a file that is not there leaves the folder as it is. -/
def deleteAttachment (filename : String) (files : List String) : List String :=
  if filename ∈ files then files.filter fun f => !(f == filename) else files

/-- `deleteHoax(hoaxId, userId)`.  The lookup joins the attachment of the hoax
(`hasOne`: the first row whose `hoaxId` is the hoax); `destroy()` deletes the
hoax row, and the foreign key with `onDelete: 'cascade'` deletes the attachment
rows that point to it. -/
def deleteHoax (hoaxId userId : Nat) (hoaxes : List HoaxRow)
    (attachments : List FileAttachmentRow) (files : List String) :
    Except Exception Unit × List HoaxRow × List FileAttachmentRow × List String :=
  match hoaxes.find? (fun h => h.id == hoaxId && h.userId == some userId) with
  | none =>
    (.error (.ForbiddenException (some "unauthorized_hoax_delete")), hoaxes, attachments, files)
  | some hoaxToBeDeleted =>
    let files2 :=
      match attachments.find? (fun a => a.hoaxId == some hoaxToBeDeleted.id) with
      | none => files
      | some fileAttachment => deleteAttachment fileAttachment.filename files
    (.ok (),
     hoaxes.filter (fun h => !(h.id == hoaxToBeDeleted.id)),
     attachments.filter (fun a => !(a.hoaxId == some hoaxToBeDeleted.id)),
     files2)

/-! ## Attachment upload (`saveAttachment`, `src/routes/fileRouter.js`) -/

/-- A member of a JSON reply body: a plain value, a nested object, or an array
of objects. -/
inductive Member where
  | value (j : Json)
  | object (members : List (String × Json))
  | array (rows : List (List (String × Json)))
  deriving DecidableEq, Repr

/-- `saveAttachment(file)`.  `type` is what `fileTypeFromBuffer(file.buffer)`
resolves to (`mime` and `ext`, or nothing), `bytes` the random bytes drawn for
`randomString(32)`, `pk` the primary key of the new row and `now` the reading of
`new Date()`.  The file is written first, then the row is created; the result
is `{ id: savedAttachment.id }`. -/
def saveAttachment (type : Option (String × String)) (bytes : List (Fin 256)) (pk : Nat)
    (now : Int) (attachments : List FileAttachmentRow) (files : List String) :
    List (String × Json) × List FileAttachmentRow × List String :=
  let filename := match type with
    | some (_, ext) => randomString bytes 32 ++ "." ++ ext
    | none => randomString bytes 32
  let files2 := if filename ∈ files then files else files ++ [filename]
  ([("id", .number pk)],
   attachments ++ [{ id := pk, filename := filename, uploadDate := now,
                     fileType := type.map Prod.fst, hoaxId := none }],
   files2)

/-- The handler of `fileRouter.post('/')`: an error of the upload middleware is
answered with `FileSizeException`; otherwise the reply is
`res.json({ attachment })` with `attachment` the result of `saveAttachment`. -/
def postAttachment (uploadError : Bool) (type : Option (String × String))
    (bytes : List (Fin 256)) (pk : Nat) (now : Int) (attachments : List FileAttachmentRow)
    (files : List String) :
    Except Exception (List (String × Member)) × List FileAttachmentRow × List String :=
  if uploadError then (.error .FileSizeException, attachments, files)
  else
    let saved := saveAttachment type bytes pk now attachments files
    (.ok [("attachment", .object saved.1)], saved.2.1, saved.2.2)

/-! ## User lookup and listing (`getUser`, `getAllUsers`) -/

/-- The attributes `['id', 'username', 'email', 'image']` of a user as a JSON
object. -/
def userAttributes (u : UserRow) : List (String × Json) :=
  [("id", .number u.id), ("username", .string u.username), ("email", .string u.email),
   ("image", Json.ofColumn u.image)]

/-- `getUser(id)`: `User.findByPk(id, { where: { inactive: false }, attributes
})`.  `findByPk` sets the `where` of its query to the primary key alone, so the
`where` passed in the options takes no part in the lookup. -/
def getUser (id : Nat) (users : List UserRow) : Except Exception (List (String × Json)) :=
  match users.find? (fun u => u.id == id) with
  | none => .error (.NotFoundException "user_not_found")
  | some user => .ok (userAttributes user)

/-- `Math.ceil(count / size)` as JSON: a number for `size > 0`, and `null` for
`size = 0`, where the quotient is not a finite number.  The quotient is a
double; for the page sizes 1 to 10 and counts below 2^49 its ceiling is the
ceiling of the exact quotient. -/
def totalPages (count size : Nat) : Json :=
  if size = 0 then .null else .number ((count + size - 1) / size)

/-- `getAllUsers(page, size, nextPage, prevPage, authenticatedUser)`: the rows
are the active users other than the caller (other than id 0 without a caller),
`size` of them from offset `page * size`; the result is the object
`{ content, totalPages, nextPage, prevPage }`.  `page`, `size`, `nextPage` and
`prevPage` come from the pagination middleware, which is not among the sources. -/
def getAllUsers (page size : Nat) (nextPage prevPage : Json)
    (authenticatedUser : Option AuthenticatedUser) (users : List UserRow) :
    List (String × Member) :=
  let excluded := match authenticatedUser with
    | some user => user.id
    | none => 0
  let selected := users.filter fun u => !u.inactive && !(u.id == excluded)
  let rows := (selected.drop (page * size)).take size
  [("content", .array (rows.map userAttributes)),
   ("totalPages", .value (totalPages selected.length size)),
   ("nextPage", .value nextPage),
   ("prevPage", .value prevPage)]

/-- The handler of `userRouter.get('/', pagination, ...)`: it replies with
`res.json(users)`, `users` being the result of `getAllUsers`. -/
def listUsers (page size : Nat) (nextPage prevPage : Json)
    (authenticatedUser : Option AuthenticatedUser) (users : List UserRow) :
    List (String × Member) :=
  getAllUsers page size nextPage prevPage authenticatedUser users

/-! ## Logout reply (`authRouter.post('/logout')`) -/

/-- The reply of the logout handler: `res.send()` answers with status 200 on
both paths; the token table is the one `logout` leaves. -/
def postLogout (authorization : Option String) (tokens : List TokenRow) :
    Nat × List TokenRow :=
  (200, logout authorization tokens)

/-! ## Timers (`setInterval` in `scheduleCleanup` and `removeUnusedAttachments`,
bootstrap in `index.js`) -/

/-- The two callbacks the services hand to `setInterval`. -/
inductive Callback where
  | tokenCleanup
  | attachmentSweep
  deriving DecidableEq, Repr

/-- A running interval timer: its callback, its delay in milliseconds and the
time at which it fires next. -/
structure Timer where
  callback : Callback
  delay : Int
  due : Int
  deriving DecidableEq, Repr

/-- `setInterval(callback, delay)` at time `now`: one more timer runs, and it
fires for the first time `delay` milliseconds later. -/
def setInterval (callback : Callback) (delay : Int) (now : Int) (timers : List Timer) :
    List Timer :=
  timers ++ [{ callback := callback, delay := delay, due := now + delay }]

/-- The call `scheduleCleanup()` itself: `setInterval(<token cleanup>, 60 * 60 *
1000)`, with no test whether a timer already runs. -/
def scheduleCleanupCall (now : Int) (timers : List Timer) : List Timer :=
  setInterval .tokenCleanup (60 * 60 * 1000) now timers

/-- The call `removeUnusedAttachments()` itself: `setInterval(<attachment
sweep>, ONE_DAY)`; the body of the function runs no sweep. -/
def removeUnusedAttachmentsCall (now : Int) (timers : List Timer) : List Timer :=
  setInterval .attachmentSweep ONE_DAY now timers

/-- The timers, tables and attachment files of a running process. -/
structure Process where
  timers : List Timer
  tokens : List TokenRow
  attachments : List FileAttachmentRow
  files : List String
  deriving DecidableEq, Repr

/-- The two calls of `index.js`, lines 9 and 10, at time `now`. -/
def bootstrap (now : Int) (p : Process) : Process :=
  { p with timers := removeUnusedAttachmentsCall now (scheduleCleanupCall now p.timers) }

/-- The timer at position `i` fires at its due time: its callback runs with
`Date.now()` reading that time (a rejection inside the callback is not handled
and leaves what the run did up to it), and the timer is due again one delay
later. -/
def fire (i : Nat) (p : Process) : Process :=
  match p.timers.get? i with
  | none => p
  | some t =>
    let timers := p.timers.set i { t with due := t.due + t.delay }
    match t.callback with
    | .tokenCleanup => { p with timers := timers, tokens := scheduleCleanup t.due p.tokens }
    | .attachmentSweep =>
      let run := removeUnusedAttachments t.due p.attachments p.files
      { p with timers := timers, attachments := run.2.1, files := run.2.2 }

/-- The number of running timers with a given callback. -/
def running (callback : Callback) (timers : List Timer) : Nat :=
  (timers.filter fun t => t.callback == callback).length

/-- `n` calls of `scheduleCleanup()` in a row. -/
def scheduleCleanupCalls (now : Int) : Nat → List Timer → List Timer
  | 0, timers => timers
  | n + 1, timers => scheduleCleanupCalls now n (scheduleCleanupCall now timers)

/-! ## Hoax listing (`getHoaxes` in `src/service/hoaxService.js`) -/

/-- The columns of the `hoaxes` table: the primary key, the two columns
`Hoax.init` declares and the foreign key of the owner. -/
def hoaxColumns : List String := ["id", "content", "timestamp", "userId"]

/-- The value of a column of a hoax row as JSON (a stored time is not
negative). -/
def hoaxAttribute (h : HoaxRow) (name : String) : Json :=
  if name = "id" then .number h.id
  else if name = "content" then Json.ofColumn h.content
  else if name = "timestamp" then
    match h.timestamp with
    | some t => .number t.toNat
    | none => .null
  else if name = "userId" then
    match h.userId with
    | some n => .number n
    | none => .null
  else .null

/-- `hoaxSequelize.get({ plain: true })` for a row of the listing query: the
selected attributes, then the included `user` with its four attributes and the
included `fileAttachment` with `filename` and `fileType`, `null` when the hoax
has none. -/
def plainHoax (attributes : List String) (h : HoaxRow) (u : UserRow)
    (a : Option FileAttachmentRow) : List (String × Member) :=
  attributes.map (fun name => (name, Member.value (hoaxAttribute h name))) ++
    [("user", .object (userAttributes u)),
     ("fileAttachment",
       match a with
       | some a => .object [("filename", .string a.filename), ("fileType", Json.ofColumn a.fileType)]
       | none => .value .null)]

/-- `Hoax.findAndCountAll({ attributes, include: [user with `where`,
fileAttachment], order: [['id', 'DESC']], limit, offset })`.  The database
rejects the query when `attributes` names a column the table does not have.
Otherwise the rows are the hoaxes whose owner exists (and is `userId` when that
is given), newest id first, `limit` of them from `offset`, each with its owner
and its attachment; the count is the number of matching hoaxes. -/
def Hoax.findAndCountAll (attributes : List String) (userId : Option Nat) (limit offset : Nat)
    (users : List UserRow) (hoaxes : List HoaxRow) (attachments : List FileAttachmentRow) :
    Except Exception (List (List (String × Member)) × Nat) :=
  if attributes.all (fun name => decide (name ∈ hoaxColumns)) then
    let matching := hoaxes.filterMap fun h =>
      match users.find? (fun u => some u.id == h.userId &&
          (match userId with
           | some id => u.id == id
           | none => true)) with
      | some u => some (h, u)
      | none => none
    let ordered := matching.insertionSort fun x y => y.1.id ≤ x.1.id
    let rows := (ordered.drop offset).take limit
    .ok (rows.map (fun x =>
           plainHoax attributes x.1 x.2
             (attachments.find? fun a => a.hoaxId == some x.1.id)),
         matching.length)
  else .error .DatabaseError

/-- JavaScript falsiness of a member of a plain row: `null`, `0` and the empty
string are falsy, an object is not. -/
def Member.falsy : Member → Bool
  | .value .null => true
  | .value (.number 0) => true
  | .value (.string s) => s == ""
  | _ => false

/-- The callback of `rows.map` in `getHoaxes`:
`if (!hoaxAsJSON.fileAttachment) delete hoaxAsJSON.fileAttachment`. -/
def omitAbsentAttachment (hoaxAsJSON : List (String × Member)) : List (String × Member) :=
  match hoaxAsJSON.lookup "fileAttachment" with
  | none => hoaxAsJSON
  | some m =>
    if m.falsy then hoaxAsJSON.filter (fun member => !(member.1 == "fileAttachment"))
    else hoaxAsJSON

/-- A member of the page object `getHoaxes` returns: a plain value or the array
of rows. -/
inductive PageMember where
  | value (j : Json)
  | rows (rows : List (List (String × Member)))
  deriving DecidableEq, Repr

/-- `getHoaxes(page, size, nextPage, prevPage, userId)`.  With a `userId` the
user is looked up first and `NotFoundException('user_not_found')` thrown when
there is none.  The query asks for the attributes `id`, `content` and
`timestamps`; its rows go through `omitAbsentAttachment` and the result is
`{ content, page, size, totalPages, nextPage, prevPage }`. -/
def getHoaxes (page size : Nat) (nextPage prevPage : Json) (userId : Option Nat)
    (users : List UserRow) (hoaxes : List HoaxRow) (attachments : List FileAttachmentRow) :
    Except Exception (List (String × PageMember)) :=
  let userMissing : Bool := match userId with
    | some id => (users.find? fun u => u.id == id).isNone
    | none => false
  if userMissing then .error (.NotFoundException "user_not_found")
  else
    match Hoax.findAndCountAll ["id", "content", "timestamps"] userId size (page * size)
        users hoaxes attachments with
    | .error e => .error e
    | .ok hoaxesWithCount =>
      .ok [("content", .rows (hoaxesWithCount.1.map omitAbsentAttachment)),
           ("page", .value (.number page)),
           ("size", .value (.number size)),
           ("totalPages", .value (totalPages hoaxesWithCount.2 size)),
           ("nextPage", .value nextPage),
           ("prevPage", .value prevPage)]

/-! ## Basic authentication (`src/middlewares/basicAuthentication.js`) -/

/-- The value of a base64 digit; both the standard and the URL-safe alphabet
are read. -/
def base64Value (c : Char) : Option Nat :=
  if 'A' ≤ c ∧ c ≤ 'Z' then some (c.toNat - 'A'.toNat)
  else if 'a' ≤ c ∧ c ≤ 'z' then some (c.toNat - 'a'.toNat + 26)
  else if '0' ≤ c ∧ c ≤ '9' then some (c.toNat - '0'.toNat + 52)
  else if c = '+' ∨ c = '-' then some 62
  else if c = '/' ∨ c = '_' then some 63
  else none

/-- The bytes of a run of base64 digits: three for each full group of four, two
for a last group of three, one for a last group of two. -/
def bytesOfSextets : List Nat → List Nat
  | a :: b :: c :: d :: rest =>
    (a * 4 + b / 16) :: (b % 16 * 16 + c / 4) :: (c % 4 * 64 + d) :: bytesOfSextets rest
  | [a, b, c] => [a * 4 + b / 16, b % 16 * 16 + c / 4]
  | [a, b] => [a * 4 + b / 16]
  | _ => []

/-- `Buffer.from(encoded, 'base64')`: decoding ends at the first `=`, and
characters outside the alphabet are skipped. -/
def bufferFromBase64 (encoded : String) : List Nat :=
  bytesOfSextets ((encoded.data.takeWhile fun c => c ≠ '=').filterMap base64Value)

/-- `buffer.toString('ascii')`: every byte is read with its high bit cleared. -/
def toAscii (bytes : List Nat) : List Char :=
  bytes.map fun b => Char.ofNat (b % 128)

/-- `decoded.split(':')`: the pieces between all the colons. -/
def splitColon : List Char → List (List Char)
  | [] => [[]]
  | c :: rest =>
    if c = ':' then [] :: splitColon rest
    else
      match splitColon rest with
      | [] => [[c]]
      | piece :: pieces => (c :: piece) :: pieces

/-- `basicAuthentication(req, res, next)`.  `.ok user` stands for the single
call of `next()` at the end, with `req.authenticatedUser` set to `user` by this
middleware (or not set); `.error` stands for a rejection before `next()` is
reached.  `[email, password] = decoded.split(':')` takes the first two pieces,
and `password` is `undefined` when there is one piece only, which
`bcrypt.compare` rejects. -/
def basicAuthentication (compare : String → String → Bool) (authorization : Option String)
    (users : List UserRow) : Except Exception (Option UserRow) :=
  match authorization with
  | none => .ok none
  | some header =>
    if header.length > 6 then
      let encoded := substring header 6
      let decoded := toAscii (bufferFromBase64 encoded)
      let pieces := splitColon decoded
      let email : String := ⟨pieces.headD []⟩
      let password : Option String := (pieces.get? 1).map String.mk
      match findByEmail email users with
      | none => .ok none
      | some authenticatedUser =>
        if !authenticatedUser.inactive then
          match password with
          | none => .error .BcryptError
          | some password =>
            if compare password authenticatedUser.password then .ok (some authenticatedUser)
            else .ok none
        else .ok none
    else .ok none

/-! ## User deletion (`deleteUser`, `deleteUserFiles`, `deleteProfileImage`) -/

/-- The tables and the two upload folders. -/
structure Store where
  users : List UserRow
  tokens : List TokenRow
  hoaxes : List HoaxRow
  attachments : List FileAttachmentRow
  profileFiles : List String
  attachmentFiles : List String
  deriving DecidableEq, Repr

/-- `deleteProfileImage(filename)`: `fs.promises.unlink` on the profile folder,
which rejects with `ENOENT` when the file is not there. -/
def deleteProfileImage (filename : String) (profileFiles : List String) :
    Except Exception (List String) :=
  if filename ∈ profileFiles then .ok (profileFiles.filter fun f => !(f == filename))
  else .error .ENOENT

/-- The rows `deleteUserFiles` selects: the attachments joined to a hoax whose
`userId` is the user's id. -/
def attachmentsOfUser (userId : Nat) (s : Store) : List FileAttachmentRow :=
  s.attachments.filter fun a =>
    s.hoaxes.any fun h => a.hoaxId == some h.id && h.userId == some userId

/-- `deleteUserFiles(user)`: a truthy `user.image` is removed with
`deleteProfileImage`, then `deleteAttachment` runs for the file of every
attachment of the user's hoaxes. -/
def deleteUserFiles (user : UserRow) (s : Store) : Except Exception Store :=
  let afterImage : Except Exception (List String) :=
    match user.image with
    | none => .ok s.profileFiles
    | some image => if image = "" then .ok s.profileFiles else deleteProfileImage image s.profileFiles
  match afterImage with
  | .error e => .error e
  | .ok profileFiles =>
    .ok { s with
      profileFiles := profileFiles,
      attachmentFiles :=
        (attachmentsOfUser user.id s).foldl (fun files a => deleteAttachment a.filename files)
          s.attachmentFiles }

/-- Modelled from the spec: `user.destroy()` with the cascades of
`src/models/User.js`, which is not among the sources: the user row goes, and
with it the user's tokens, the user's hoaxes and the attachment rows that point
to those hoaxes. -/
def User.destroy (user : UserRow) (s : Store) : Store :=
  { s with
    users := s.users.filter fun u => !(u.id == user.id),
    tokens := s.tokens.filter fun t => !(t.userId == user.id),
    hoaxes := s.hoaxes.filter fun h => !(h.userId == some user.id),
    attachments := s.attachments.filter fun a =>
      !(s.hoaxes.any fun h => a.hoaxId == some h.id && h.userId == some user.id) }

/-- `deleteUser(id)`: `findByPk`, `deleteUserFiles`, `user.destroy()`.  When
the lookup gives `null`, reading `user.image` raises a `TypeError`; a rejection
of `deleteUserFiles` ends the call before `destroy`. -/
def deleteUser (id : Nat) (s : Store) : Except Exception Unit × Store :=
  match s.users.find? (fun u => u.id == id) with
  | none => (.error .TypeError, s)
  | some user =>
    match deleteUserFiles user s with
    | .error e => (.error e, s)
    | .ok s2 => (.ok (), User.destroy user s2)

/-! ## Statements about the token service -/

theorem find?_unexpired_eq_none (oneWeekAgo : Int) (t : String) (tokens : List TokenRow)
    (h : ∀ r ∈ tokens, r.token = t → r.lastUsedAt < oneWeekAgo) :
    tokens.find? (unexpired oneWeekAgo t) = none := by
  rw [List.find?_eq_none]
  intro r hr
  simp only [unexpired, Bool.and_eq_true, beq_iff_eq, decide_eq_true_eq, not_and, not_le]
  exact h r hr

/-- C1 (as the code behaves): when the table holds no row with string `t` and
`lastUsedAt >= now - 7 days`, `verify(t)` fails and leaves the table unchanged,
but the failure is the runtime `TypeError` of calling `update` on `null`, not an
`AuthenticationException`. -/
theorem verify_absent_or_expired_raises_TypeError (now now2 : Int) (t : String)
    (tokens : List TokenRow)
    (h : ∀ r ∈ tokens, r.token = t → r.lastUsedAt < now - ONE_WEEK_IN_MILLIS) :
    verify now now2 t tokens = (.error .TypeError, tokens) ∧
      (verify now now2 t tokens).1 ≠ .error .AuthenticationException := by
  have hf := find?_unexpired_eq_none (now - ONE_WEEK_IN_MILLIS) t tokens h
  simp [verify, hf]

theorem verify_absent_or_expired_raises_TypeError_witness :
    (∀ r ∈ [({ id := 1, token := "test-token", userId := 1, lastUsedAt := 0 } : TokenRow)],
        r.token = "test-token" → r.lastUsedAt < 700000000 - ONE_WEEK_IN_MILLIS) ∧
      verify 700000000 700000000 "test-token"
          [{ id := 1, token := "test-token", userId := 1, lastUsedAt := 0 }]
        = (.error .TypeError, [{ id := 1, token := "test-token", userId := 1, lastUsedAt := 0 }]) :=
  ⟨by simp [ONE_WEEK_IN_MILLIS],
   (verify_absent_or_expired_raises_TypeError 700000000 700000000 "test-token" _
      (by simp [ONE_WEEK_IN_MILLIS])).1⟩

theorem substring_bearer_six (t : String) : substring ("Bearer " ++ t) 6 = " " ++ t := by
  apply String.ext
  simp [substring, String.data_append]

theorem substring_bearer_seven (t : String) : substring ("Bearer " ++ t) 7 = t := by
  apply String.ext
  simp [substring, String.data_append]

theorem bearer_ne_empty (t : String) : "Bearer " ++ t ≠ "" := by
  intro h
  have := congrArg String.length h
  simp only [String.length_append] at this
  have h7 : "Bearer ".length = 7 := by decide
  have h0 : "".length = 0 := by decide
  omega

theorem blank_append_ne (t : String) : " " ++ t ≠ t := by
  intro h
  have := congrArg String.length h
  simp only [String.length_append] at this
  have h1 : " ".length = 1 := by decide
  omega

/-- The sibling path: the logout handler cuts the header after seven
characters and so deletes exactly the token that follows `Bearer `. -/
theorem logout_bearer (t : String) (tokens : List TokenRow) :
    logout (some ("Bearer " ++ t)) tokens = deleteToken t tokens := by
  simp [logout, bearer_ne_empty, substring_bearer_seven]

/-- C2 (as the code behaves): for the header `Bearer ` followed by `t` the
middleware passes `verify` the string made of a blank followed by `t`, not `t`;
when no stored token string begins with that blank, the request stays
unauthenticated and no `lastUsedAt` is refreshed, whatever the state of `t`. -/
theorem tokenAuthentication_bearer_passes_blank (now now2 : Int) (t : String)
    (tokens : List TokenRow) (h : ∀ r ∈ tokens, r.token ≠ " " ++ t) :
    (tokenAuthentication now now2 (some ("Bearer " ++ t)) tokens).verifyArgument
        = some (" " ++ t) ∧
      (tokenAuthentication now now2 (some ("Bearer " ++ t)) tokens).verifyArgument ≠ some t ∧
      (tokenAuthentication now now2 (some ("Bearer " ++ t)) tokens).authenticatedUser = none ∧
      (tokenAuthentication now now2 (some ("Bearer " ++ t)) tokens).tokens = tokens := by
  have hf : tokens.find? (unexpired (now - ONE_WEEK_IN_MILLIS) (" " ++ t)) = none := by
    apply find?_unexpired_eq_none
    intro r hr ht
    exact absurd ht (h r hr)
  have hne : (some (" " ++ t) : Option String) ≠ some t := by
    intro h2
    exact blank_append_ne t (Option.some.inj h2)
  refine ⟨?_, ?_, ?_, ?_⟩
  · simp [tokenAuthentication, bearer_ne_empty, substring_bearer_six, verify, hf]
  · simp only [tokenAuthentication, bearer_ne_empty, substring_bearer_six, verify, hf, if_false]
    exact hne
  · simp [tokenAuthentication, bearer_ne_empty, substring_bearer_six, verify, hf]
  · simp [tokenAuthentication, bearer_ne_empty, substring_bearer_six, verify, hf]

theorem tokenAuthentication_bearer_passes_blank_witness :
    (∀ r ∈ [({ id := 1, token := "test-token", userId := 7, lastUsedAt := 400000000 } : TokenRow)],
        r.token ≠ " " ++ "test-token") ∧
      (tokenAuthentication 745600000 745600001 (some ("Bearer " ++ "test-token"))
          [{ id := 1, token := "test-token", userId := 7, lastUsedAt := 400000000 }]).authenticatedUser
        = none ∧
      (tokenAuthentication 745600000 745600001 (some ("Bearer " ++ "test-token"))
          [{ id := 1, token := "test-token", userId := 7, lastUsedAt := 400000000 }]).tokens
        = [{ id := 1, token := "test-token", userId := 7, lastUsedAt := 400000000 }] :=
  ⟨by decide,
   (tokenAuthentication_bearer_passes_blank 745600000 745600001 "test-token" _ (by decide)).2.2.1,
   (tokenAuthentication_bearer_passes_blank 745600000 745600001 "test-token" _ (by decide)).2.2.2⟩

theorem find?_eq_some_of_unique {α : Type} (p : α → Bool) (l : List α) (r : α)
    (hr : r ∈ l) (hp : p r = true) (hu : ∀ x ∈ l, p x = true → x = r) :
    l.find? p = some r := by
  induction l with
  | nil => cases hr
  | cons a l ih =>
    by_cases ha : p a = true
    · have := hu a (List.mem_cons_self a l) ha
      subst this
      simp [List.find?, ha]
    · have har : r ≠ a := fun e => ha (e ▸ hp)
      have hr2 : r ∈ l := by
        rcases List.mem_cons.mp hr with e | e
        · exact absurd e har
        · exact e
      have := ih hr2 (fun x hx => hu x (List.mem_cons_of_mem a hx))
      simp [List.find?, ha, this]

/-- C3: for a stored row `r` that is unexpired at `now`, in a table where the
primary key and the token string each identify `r`, `verify(r.token)` succeeds
with `{ id: r.userId }`, and the table it leaves is the old one with `r`'s
`lastUsedAt` set to the time read for the update and every other row as it was. -/
theorem verify_unexpired_refreshes (now now2 : Int) (tokens : List TokenRow) (r : TokenRow)
    (hr : r ∈ tokens)
    (hpk : ∀ x ∈ tokens, x.id = r.id → x = r)
    (htoken : ∀ x ∈ tokens, x.token = r.token → x = r)
    (hfresh : now - ONE_WEEK_IN_MILLIS ≤ r.lastUsedAt) :
    verify now now2 r.token tokens =
      (.ok { id := r.userId },
       tokens.map fun x => if x = r then { r with lastUsedAt := now2 } else x) := by
  have hf : tokens.find? (unexpired (now - ONE_WEEK_IN_MILLIS) r.token) = some r := by
    apply find?_eq_some_of_unique _ _ _ hr
    · simp [unexpired, hfresh]
    · intro x hx hp
      simp only [unexpired, Bool.and_eq_true, beq_iff_eq, decide_eq_true_eq] at hp
      exact htoken x hx hp.1
  simp only [verify, hf, updateLastUsedAt]
  congr 1
  apply List.map_congr_left
  intro x hx
  by_cases hx2 : x = r
  · subst hx2
    simp
  · have : x.id ≠ r.id := fun e => hx2 (hpk x hx e)
    simp [hx2, this]

theorem verify_unexpired_refreshes_witness :
    verify 745600000 745600001 "test-token"
        [{ id := 1, token := "test-token", userId := 7, lastUsedAt := 400000000 },
         { id := 2, token := "other", userId := 8, lastUsedAt := 5 }]
      = (.ok { id := 7 },
         [{ id := 1, token := "test-token", userId := 7, lastUsedAt := 745600001 },
          { id := 2, token := "other", userId := 8, lastUsedAt := 5 }]) := by
  have h := verify_unexpired_refreshes 745600000 745600001
    [{ id := 1, token := "test-token", userId := 7, lastUsedAt := 400000000 },
     { id := 2, token := "other", userId := 8, lastUsedAt := 5 }]
    { id := 1, token := "test-token", userId := 7, lastUsedAt := 400000000 }
    (by simp) (by simp) (by simp) (by simp [ONE_WEEK_IN_MILLIS])
  simpa using h

/-- C4 fails as stated: a token whose `lastUsedAt` is the millisecond of the
call is verified successfully and keeps the same `lastUsedAt`, so its value
after the call is not strictly greater than its value before. -/
theorem verify_lastUsedAt_not_strictly_greater :
    (verify 1000 1000 "abc" [{ id := 1, token := "abc", userId := 1, lastUsedAt := 1000 }]).1
        = .ok { id := 1 } ∧
      ¬ (∃ before after : Int,
          lastUsedAtOf 1 [{ id := 1, token := "abc", userId := 1, lastUsedAt := 1000 }]
            = some before ∧
          lastUsedAtOf 1
            (verify 1000 1000 "abc"
              [{ id := 1, token := "abc", userId := 1, lastUsedAt := 1000 }]).2 = some after ∧
          before < after) := by
  refine ⟨by decide, ?_⟩
  rintro ⟨before, after, hb, ha, hlt⟩
  have h1 : lastUsedAtOf 1 [{ id := 1, token := "abc", userId := 1, lastUsedAt := 1000 }]
      = some 1000 := by decide
  have h2 : lastUsedAtOf 1
      (verify 1000 1000 "abc" [{ id := 1, token := "abc", userId := 1, lastUsedAt := 1000 }]).2
      = some 1000 := by decide
  rw [h1] at hb
  rw [h2] at ha
  cases hb
  cases ha
  exact absurd hlt (by decide)

theorem lastUsedAtOf_updateLastUsedAt (pk : Nat) (v : Int) (tokens : List TokenRow)
    (h : ∃ x ∈ tokens, x.id = pk) :
    lastUsedAtOf pk (updateLastUsedAt pk v tokens) = some v := by
  induction tokens with
  | nil => obtain ⟨x, hx, _⟩ := h; cases hx
  | cons a l ih =>
    by_cases ha : a.id = pk
    · simp [lastUsedAtOf, updateLastUsedAt, List.find?, ha]
    · have hl : ∃ x ∈ l, x.id = pk := by
        obtain ⟨x, hx, hxi⟩ := h
        rcases List.mem_cons.mp hx with e | e
        · exact absurd (e ▸ hxi) ha
        · exact ⟨x, e, hxi⟩
      have := ih hl
      simp only [lastUsedAtOf, updateLastUsedAt] at this ⊢
      rw [List.map_cons, if_neg ha, List.find?_cons]
      have hb : (a.id == pk) = false := by simp [ha]
      rw [hb]
      exact this

/-- C4 (amended): after a successful `verify` the verified row's `lastUsedAt`
is the time the call read for the update; it is strictly greater than the
value before the call exactly when that value is earlier than this time. -/
theorem verify_sets_lastUsedAt (now now2 : Int) (t : String) (tokens : List TokenRow)
    (user : AuthenticatedUser) (hok : (verify now now2 t tokens).1 = .ok user) :
    ∃ r ∈ tokens, r.token = t ∧ user.id = r.userId ∧
      lastUsedAtOf r.id (verify now now2 t tokens).2 = some now2 ∧
      (r.lastUsedAt < now2 ↔
        ∃ after, lastUsedAtOf r.id (verify now now2 t tokens).2 = some after ∧
          r.lastUsedAt < after) := by
  unfold verify at hok ⊢
  cases hf : tokens.find? (unexpired (now - ONE_WEEK_IN_MILLIS) t) with
  | none => simp [hf] at hok
  | some r =>
    simp only [hf] at hok ⊢
    have hmem : r ∈ tokens := List.mem_of_find?_eq_some hf
    have hp := List.find?_some hf
    simp only [unexpired, Bool.and_eq_true, beq_iff_eq, decide_eq_true_eq] at hp
    have hu : user.id = r.userId := by
      have := Except.ok.inj hok
      rw [← this]
    have hl := lastUsedAtOf_updateLastUsedAt r.id now2 tokens ⟨r, hmem, rfl⟩
    refine ⟨r, hmem, hp.1, hu, hl, ?_⟩
    constructor
    · intro hlt
      exact ⟨now2, hl, hlt⟩
    · rintro ⟨after, ha, hlt⟩
      rw [hl] at ha
      cases ha
      exact hlt

theorem verify_sets_lastUsedAt_witness :
    ∃ r ∈ [({ id := 1, token := "abc", userId := 1, lastUsedAt := 1000 } : TokenRow)],
      r.token = "abc" ∧ (1 : Nat) = r.userId ∧
      lastUsedAtOf r.id
          (verify 2000 2001 "abc" [{ id := 1, token := "abc", userId := 1, lastUsedAt := 1000 }]).2
        = some 2001 ∧
      (r.lastUsedAt < 2001 ↔
        ∃ after, lastUsedAtOf r.id
            (verify 2000 2001 "abc" [{ id := 1, token := "abc", userId := 1, lastUsedAt := 1000 }]).2
          = some after ∧ r.lastUsedAt < after) :=
  verify_sets_lastUsedAt 2000 2001 "abc"
    [{ id := 1, token := "abc", userId := 1, lastUsedAt := 1000 }] { id := 1 } (by decide)

/-! ## Statements about the password-update route -/

/-- C5 (as the code behaves): `PUT /password` on the user router is answered by
the `/:id` route, registered first, with `id` bound to `password`; since
`Number('password')` is `NaN`, its guard answers every such request with
`ForbiddenException('unauthorized_user_update')` and leaves the tables as they
were, whatever the body carries and whoever is authenticated. -/
theorem put_password_answered_by_put_id (hash : String → String)
    (authenticatedUser : Option AuthenticatedUser) (body : UpdateRequest)
    (rest : Except Exception Message × List UserRow × List TokenRow)
    (users : List UserRow) (tokens : List TokenRow) :
    userRouterPut hash authenticatedUser ["password"] body rest users tokens =
      some (.updateUser,
        (.error (.ForbiddenException (some "unauthorized_user_update")), users, tokens)) := by
  have hd : dispatch userRouter .PUT ["password"] = some (.updateUser, [("id", "password")]) := by
    decide
  have hn : Number "password" = none := by decide
  have hl : List.lookup "id" [("id", "password")] = some "password" := by decide
  cases authenticatedUser <;> simp [userRouterPut, hd, hl, putUser, hn]

/-- The handler registered for `PUT /password`, run on its own, does what the
route is documented to do: with a reset token some user holds, a password that
breaks the rules gives a `ValidationException` and changes nothing. -/
theorem putPassword_invalid_password (hash : String → String) (users : List UserRow)
    (tokens : List TokenRow) (t : String) (p : BodyField) (u : UserRow)
    (hu : users.find? (fun x => x.passwordResetToken == some t) = some u)
    (hp : validatePassword p ≠ []) :
    putPassword hash { passwordResetToken := .str t, password := p } users tokens =
      (.error (.ValidationException (validatePassword p)), users, tokens) := by
  cases hv : validatePassword p with
  | nil => exact absurd hv hp
  | cons e es =>
    simp [putPassword, passwordResetTokenValidator, findByPasswordResetToken, hu, hv]

/-- C6 (as the code behaves): a `null` reset token is looked up with `IS NULL`
and so resolves to a user that holds no reset token: the validator passes the
request on, and the handler chain behind it rewrites that user's password; an
absent token makes the lookup itself fail with a query error, not with
`ForbiddenException`. -/
theorem passwordResetTokenValidator_null_token (hash : String → String) :
    passwordResetTokenValidator { passwordResetToken := .null, password := .str "N3w-password" }
        [{ id := 1, username := "user1", email := "user1@mail.com", password := "old-hash",
           inactive := false, activationToken := none, passwordResetToken := none,
           image := none }] = .ok () ∧
      putPassword hash { passwordResetToken := .null, password := .str "N3w-password" }
        [{ id := 1, username := "user1", email := "user1@mail.com", password := "old-hash",
           inactive := false, activationToken := none, passwordResetToken := none,
           image := none }]
        [{ id := 1, token := "token-1", userId := 1, lastUsedAt := 0 }] =
        (.ok { message := "Password updated" },
         [{ id := 1, username := "user1", email := "user1@mail.com",
            password := hash "N3w-password", inactive := false, activationToken := none,
            passwordResetToken := none, image := none }],
         []) ∧
      passwordResetTokenValidator { passwordResetToken := .absent, password := .str "N3w-password" }
        [] = .error .QueryError := by
  refine ⟨by decide, ?_, by decide⟩
  have hv : validatePassword (.str "N3w-password") = [] := by decide
  simp [putPassword, passwordResetTokenValidator, findByPasswordResetToken, hv, updatePassword,
    resetCredentials, clearTokens]

/-- The part of C6 that holds: a reset token given as a string that no user
stores is rejected with `ForbiddenException('unauthorized_password_reset')`,
and the handler chain changes neither table. -/
theorem putPassword_unknown_token (hash : String → String) (users : List UserRow)
    (tokens : List TokenRow) (t : String) (p : BodyField)
    (hu : ∀ u ∈ users, u.passwordResetToken ≠ some t) :
    passwordResetTokenValidator { passwordResetToken := .str t, password := p } users =
        .error (.ForbiddenException (some "unauthorized_password_reset")) ∧
      putPassword hash { passwordResetToken := .str t, password := p } users tokens =
        (.error (.ForbiddenException (some "unauthorized_password_reset")), users, tokens) := by
  have hf : users.find? (fun x => x.passwordResetToken == some t) = none := by
    rw [List.find?_eq_none]
    intro u hm
    simpa using hu u hm
  simp [putPassword, passwordResetTokenValidator, findByPasswordResetToken, hf]

/-- C7: when the request's reset token resolves to user `u`, `updatePassword`
succeeds; every row with `u`'s primary key then holds the new hash of the
request password, no reset token, no activation token and `inactive = false`;
`u` itself is stored in that form; rows with another key are as they were; and
the token table is the prior one without exactly the rows whose `userId` is
`u.id`. -/
theorem updatePassword_resets_user (hash : String → String) (token : BodyField)
    (password : String) (users : List UserRow) (tokens : List TokenRow) (u : UserRow)
    (hfound : findByPasswordResetToken token users = .ok (some u)) :
    (updatePassword hash { passwordResetToken := token, password := .str password }
        users tokens).1 = .ok () ∧
      { u with password := hash password, passwordResetToken := none, inactive := false,
               activationToken := none } ∈
        (updatePassword hash { passwordResetToken := token, password := .str password }
          users tokens).2.1 ∧
      (∀ x ∈ (updatePassword hash { passwordResetToken := token, password := .str password }
            users tokens).2.1,
          x.id = u.id →
            x.password = hash password ∧ x.passwordResetToken = none ∧
              x.activationToken = none ∧ x.inactive = false) ∧
      (∀ x, x.id ≠ u.id →
          (x ∈ (updatePassword hash { passwordResetToken := token, password := .str password }
              users tokens).2.1 ↔ x ∈ users)) ∧
      (updatePassword hash { passwordResetToken := token, password := .str password }
          users tokens).2.2 = tokens.filter (fun r => decide (r.userId ≠ u.id)) ∧
      (∀ r, r ∈ (updatePassword hash { passwordResetToken := token, password := .str password }
            users tokens).2.2 ↔ r ∈ tokens ∧ r.userId ≠ u.id) := by
  have hmem : u ∈ users := by
    cases token with
    | absent => simp [findByPasswordResetToken] at hfound
    | null =>
      simp only [findByPasswordResetToken, Except.ok.injEq] at hfound
      exact List.mem_of_find?_eq_some hfound
    | str t =>
      simp only [findByPasswordResetToken, Except.ok.injEq] at hfound
      exact List.mem_of_find?_eq_some hfound
  have hup : updatePassword hash { passwordResetToken := token, password := .str password }
      users tokens =
      (.ok (),
       users.map (fun x => if x.id = u.id then resetCredentials (hash password) x else x),
       clearTokens u.id tokens) := by
    simp only [updatePassword, hfound]
  rw [hup]
  refine ⟨rfl, ?_, ?_, ?_, ?_, ?_⟩ <;> dsimp only
  · rw [List.mem_map]
    exact ⟨u, hmem, by simp [resetCredentials]⟩
  · intro x hx hid
    rw [List.mem_map] at hx
    obtain ⟨y, _, hy⟩ := hx
    by_cases hyu : y.id = u.id
    · rw [if_pos hyu] at hy
      subst hy
      simp [resetCredentials]
    · rw [if_neg hyu] at hy
      subst hy
      exact absurd hid hyu
  · intro x hne
    rw [List.mem_map]
    constructor
    · rintro ⟨y, hy, hxy⟩
      by_cases hyu : y.id = u.id
      · rw [if_pos hyu] at hxy
        subst hxy
        exact absurd hyu hne
      · rw [if_neg hyu] at hxy
        subst hxy
        exact hy
    · intro hx
      exact ⟨x, hx, by rw [if_neg hne]⟩
  · simp only [clearTokens]
    apply List.filter_congr
    intro r _
    by_cases h : r.userId = u.id <;> simp [h]
  · intro r
    simp [clearTokens]

theorem updatePassword_resets_user_witness :
    (updatePassword (fun p => "hashed:" ++ p)
        { passwordResetToken := .str "test-token", password := .str "N3w-password" }
        [{ id := 1, username := "user1", email := "user1@mail.com", password := "old-hash",
           inactive := true, activationToken := some "activation-token",
           passwordResetToken := some "test-token", image := none }]
        [{ id := 1, token := "token-1", userId := 1, lastUsedAt := 0 },
         { id := 2, token := "token-2", userId := 2, lastUsedAt := 0 }]).2.2
      = [{ id := 2, token := "token-2", userId := 2, lastUsedAt := 0 }] := by
  have h := (updatePassword_resets_user (fun p => "hashed:" ++ p) (.str "test-token")
    "N3w-password"
    [{ id := 1, username := "user1", email := "user1@mail.com", password := "old-hash",
       inactive := true, activationToken := some "activation-token",
       passwordResetToken := some "test-token", image := none }]
    [{ id := 1, token := "token-1", userId := 1, lastUsedAt := 0 },
     { id := 2, token := "token-2", userId := 2, lastUsedAt := 0 }]
    { id := 1, username := "user1", email := "user1@mail.com", password := "old-hash",
      inactive := true, activationToken := some "activation-token",
      passwordResetToken := some "test-token", image := none }
    (by decide)).2.2.2.2.1
  rw [h]
  decide

/-! ## Statements about login -/

/-- C8: in a user table whose stored e-mails are all well-formed addresses
(registration stores no other), `POST /auth` answers with
`AuthenticationException` when no user has the e-mail or the password does not
match the hash of the user found; with `ForbiddenException` when the password
matches and that user is inactive; and otherwise appends exactly one token row
bound to the user and replies with the keys `id`, `username`, `image`, `token`
in this order, `token` being the stored token string, the one `createToken`
draws with `randomString(32)`. -/
theorem login_outcome (isEmail : String → Bool) (compare : String → String → Bool)
    (bytes : List (Fin 256)) (pk : Nat) (now : Int) (email password : String)
    (users : List UserRow) (tokens : List TokenRow)
    (hstore : ∀ u ∈ users, isEmail u.email = true) :
    ((∀ u ∈ users, u.email ≠ email) →
        login isEmail compare bytes pk now email password users tokens =
          (.error .AuthenticationException, tokens)) ∧
      (∀ u, findByEmail email users = some u → compare password u.password = false →
        login isEmail compare bytes pk now email password users tokens =
          (.error .AuthenticationException, tokens)) ∧
      (∀ u, findByEmail email users = some u → compare password u.password = true →
        u.inactive = true →
        login isEmail compare bytes pk now email password users tokens =
          (.error (.ForbiddenException none), tokens)) ∧
      (∀ u, findByEmail email users = some u → compare password u.password = true →
        u.inactive = false →
        login isEmail compare bytes pk now email password users tokens =
          (.ok [("id", .number u.id), ("username", .string u.username),
                ("image", Json.ofColumn u.image), ("token", .string (randomString bytes 32))],
           tokens ++ [{ id := pk, token := randomString bytes 32, userId := u.id, lastUsedAt := now }])) := by
  have hvalid : ∀ u, findByEmail email users = some u → isEmail email = true := by
    intro u hu
    have hm : u ∈ users := List.mem_of_find?_eq_some hu
    have he : u.email = email := by
      have := List.find?_some hu
      simpa using this
    rw [← he]
    exact hstore u hm
  refine ⟨?_, ?_, ?_, ?_⟩
  · intro hnone
    have hf : findByEmail email users = none := by
      unfold findByEmail
      rw [List.find?_eq_none]
      intro u hu
      simpa using hnone u hu
    unfold login
    by_cases hv : isEmail email = true <;> simp [hv, hf]
  · intro u hu hc
    simp [login, hvalid u hu, hu, hc]
  · intro u hu hc hi
    simp [login, hvalid u hu, hu, hc, hi]
  · intro u hu hc hi
    simp [login, hvalid u hu, hu, hc, hi, createToken]

theorem login_outcome_witness :
    login (fun s => decide ('@' ∈ s.data)) (fun p h => decide ("hashed:" ++ p = h))
        (List.replicate 32 (0 : Fin 256)) 1 1000 "user1@mail.com" "P4ssword"
        [{ id := 5, username := "user1", email := "user1@mail.com",
           password := "hashed:P4ssword", inactive := false, activationToken := none,
           passwordResetToken := none, image := none }] []
      = (.ok [("id", .number 5), ("username", .string "user1"), ("image", .null),
              ("token", .string "00000000000000000000000000000000")],
         [{ id := 1, token := "00000000000000000000000000000000", userId := 5,
            lastUsedAt := 1000 }]) := by
  have h := (login_outcome (fun s => decide ('@' ∈ s.data))
      (fun p h => decide ("hashed:" ++ p = h))
      (List.replicate 32 (0 : Fin 256)) 1 1000 "user1@mail.com" "P4ssword"
      [{ id := 5, username := "user1", email := "user1@mail.com",
         password := "hashed:P4ssword", inactive := false, activationToken := none,
         passwordResetToken := none, image := none }] []
      (by decide)).2.2.2
    { id := 5, username := "user1", email := "user1@mail.com",
      password := "hashed:P4ssword", inactive := false, activationToken := none,
      passwordResetToken := none, image := none }
    (by decide) (by decide) (by decide)
  rw [h]
  decide

/-! ## Statements about attachments -/

theorem find?_map_of_id_preserved (pk : Nat) (f : FileAttachmentRow → FileAttachmentRow)
    (hf : ∀ a, (f a).id = a.id) (l : List FileAttachmentRow) :
    (l.map f).find? (fun a => a.id == pk) = (l.find? (fun a => a.id == pk)).map f := by
  induction l with
  | nil => rfl
  | cons a l ih =>
    by_cases ha : a.id = pk
    · simp [List.find?, hf, ha]
    · have hb : (a.id == pk) = false := by simp [ha]
      have hb2 : ((f a).id == pk) = false := by simp [hf, ha]
      rw [List.map_cons, List.find?_cons, List.find?_cons, hb, hb2]
      exact ih

theorem truthy_false_ne (x : Option Nat) (h1 : Nat) (hx : truthy x = false) (hpos : h1 ≠ 0) :
    (x == some h1) = false := by
  cases x with
  | none => rfl
  | some n =>
    cases n with
    | zero =>
      have : (0 : Nat) ≠ h1 := fun e => hpos e.symm
      simpa using this
    | succ k => simp [truthy] at hx

theorem associateFileToHoax_ok_of_stored (a hoaxId : Nat) (hoaxes : List HoaxRow)
    (attachments : List FileAttachmentRow)
    (hany : hoaxes.any (fun h => h.id == hoaxId) = true) :
    (associateFileToHoax a hoaxId hoaxes attachments).1 = .ok () := by
  unfold associateFileToHoax
  cases attachments.find? (fun r => r.id == a) with
  | none => rfl
  | some att =>
    simp only []
    split_ifs <;> rfl

/-- C9: for a hoax id `h1` of a stored hoax (ids being positive) and any `h2`:
the first call `associateFileToHoax(a, h1)` succeeds; when the attachment with
id `a` has no hoax yet it sets the link, so that this row then holds `h1`, and
when it already has one it changes nothing; a second call
`associateFileToHoax(a, h2)` succeeds and leaves the table the first call
left, whether `h2` is `h1` or not.  When no attachment has id `a`, the call
succeeds and leaves the table as it was, for every id.  An id `h1` that no
stored hoax has is rejected by the foreign key when the call comes to write it,
and the table stays as it was. -/
theorem associateFileToHoax_set_once (hoaxes : List HoaxRow)
    (attachments : List FileAttachmentRow) (a h1 h2 : Nat) :
    (h1 ≠ 0 → (∃ h ∈ hoaxes, h.id = h1) →
        (associateFileToHoax a h1 hoaxes attachments).1 = .ok () ∧
        associateFileToHoax a h2 hoaxes (associateFileToHoax a h1 hoaxes attachments).2 =
          (.ok (), (associateFileToHoax a h1 hoaxes attachments).2) ∧
        (∀ att, attachments.find? (fun r => r.id == a) = some att →
          truthy att.hoaxId = false →
          (associateFileToHoax a h1 hoaxes attachments).2 =
              attachments.map (fun r => if r.id = a then { r with hoaxId := some h1 } else r) ∧
            (associateFileToHoax a h1 hoaxes attachments).2.find? (fun r => r.id == a) =
              some { att with hoaxId := some h1 }) ∧
        (∀ att, attachments.find? (fun r => r.id == a) = some att →
          truthy att.hoaxId = true →
          (associateFileToHoax a h1 hoaxes attachments).2 = attachments)) ∧
      ((∀ r ∈ attachments, r.id ≠ a) →
        associateFileToHoax a h1 hoaxes attachments = (.ok (), attachments)) ∧
      (∀ att, attachments.find? (fun r => r.id == a) = some att →
        truthy att.hoaxId = false → att.hoaxId ≠ some h1 → (∀ h ∈ hoaxes, h.id ≠ h1) →
        associateFileToHoax a h1 hoaxes attachments =
          (.error .ForeignKeyConstraintError, attachments)) := by
  refine ⟨?_, ?_, ?_⟩
  · intro hpos hh1
    have hany : hoaxes.any (fun h => h.id == h1) = true := by
      rw [List.any_eq_true]
      obtain ⟨h, hm, hid⟩ := hh1
      exact ⟨h, hm, by simp [hid]⟩
    cases hfind : attachments.find? (fun r => r.id == a) with
    | none =>
      have h1eq : associateFileToHoax a h1 hoaxes attachments = (.ok (), attachments) := by
        simp [associateFileToHoax, hfind]
      refine ⟨by rw [h1eq], ?_, ?_, ?_⟩
      · rw [h1eq]
        simp [associateFileToHoax, hfind]
      · intro att hatt
        cases hatt
      · intro att hatt
        cases hatt
    | some att =>
      have hatt : att.id = a := by
        have := List.find?_some hfind
        simpa using this
      by_cases ht : truthy att.hoaxId = true
      · have h1eq : associateFileToHoax a h1 hoaxes attachments = (.ok (), attachments) := by
          simp [associateFileToHoax, hfind, ht]
        refine ⟨by rw [h1eq], ?_, ?_, ?_⟩
        · rw [h1eq]
          simp [associateFileToHoax, hfind, ht]
        · intro att2 hatt2 hf
          cases hatt2
          rw [ht] at hf
          cases hf
        · intro _ _ _
          rw [h1eq]
      · have htf : truthy att.hoaxId = false := by simpa using ht
        have hne := truthy_false_ne att.hoaxId h1 htf hpos
        have h1eq : associateFileToHoax a h1 hoaxes attachments =
            (.ok (), attachments.map fun r =>
              if r.id = a then { r with hoaxId := some h1 } else r) := by
          simp [associateFileToHoax, hfind, htf, hne, hany, hatt]
        have hfind2 := find?_map_of_id_preserved a
          (fun r => if r.id = a then { r with hoaxId := some h1 } else r)
          (by intro r; by_cases hr : r.id = a <;> simp [hr]) attachments
        rw [hfind] at hfind2
        simp only [Option.map] at hfind2
        rw [if_pos hatt] at hfind2
        have ht1 : truthy (some h1) = true := by
          cases h1 with
          | zero => exact absurd rfl hpos
          | succ n => rfl
        refine ⟨by rw [h1eq], ?_, ?_, ?_⟩
        · rw [h1eq]
          simp only [associateFileToHoax]
          rw [hfind2]
          simp [ht1]
        · intro att2 hatt2 _
          cases hatt2
          rw [h1eq]
          exact ⟨rfl, hfind2⟩
        · intro att2 hatt2 hf
          cases hatt2
          exact absurd hf ht
  · intro hnone
    have hfind : attachments.find? (fun r => r.id == a) = none := by
      rw [List.find?_eq_none]
      intro r hr
      simpa using hnone r hr
    simp [associateFileToHoax, hfind]
  · intro att hfind htf hne hnone
    have hany : hoaxes.any (fun h => h.id == h1) = false := by
      rw [List.any_eq_false]
      intro h hm
      simpa using hnone h hm
    simp [associateFileToHoax, hfind, htf, hne, hany]

theorem associateFileToHoax_set_once_witness :
    associateFileToHoax 3 7
        [{ id := 7, content := some "hoax content", timestamp := none, userId := some 1 },
         { id := 8, content := some "hoax content 2", timestamp := none, userId := some 1 }]
        [{ id := 3, filename := "f3.png", uploadDate := 0, fileType := none, hoaxId := none }]
      = (.ok (),
         [{ id := 3, filename := "f3.png", uploadDate := 0, fileType := none,
            hoaxId := some 7 }]) ∧
      associateFileToHoax 3 8
        [{ id := 7, content := some "hoax content", timestamp := none, userId := some 1 },
         { id := 8, content := some "hoax content 2", timestamp := none, userId := some 1 }]
        (associateFileToHoax 3 7
          [{ id := 7, content := some "hoax content", timestamp := none, userId := some 1 },
           { id := 8, content := some "hoax content 2", timestamp := none, userId := some 1 }]
          [{ id := 3, filename := "f3.png", uploadDate := 0, fileType := none,
             hoaxId := none }]).2
      = (.ok (),
         (associateFileToHoax 3 7
          [{ id := 7, content := some "hoax content", timestamp := none, userId := some 1 },
           { id := 8, content := some "hoax content 2", timestamp := none, userId := some 1 }]
          [{ id := 3, filename := "f3.png", uploadDate := 0, fileType := none,
             hoaxId := none }]).2) :=
  ⟨by decide,
   ((associateFileToHoax_set_once
      [{ id := 7, content := some "hoax content", timestamp := none, userId := some 1 },
       { id := 8, content := some "hoax content 2", timestamp := none, userId := some 1 }]
      [{ id := 3, filename := "f3.png", uploadDate := 0, fileType := none, hoaxId := none }]
      3 7 8).1 (by decide) ⟨_, List.mem_cons_self _ _, rfl⟩).2.1⟩

theorem associateFileToHoax_unknown_hoax :
    associateFileToHoax 3 9
        [{ id := 7, content := some "hoax content", timestamp := none, userId := some 1 }]
        [{ id := 3, filename := "f3.png", uploadDate := 0, fileType := none, hoaxId := none }]
      = (.error .ForeignKeyConstraintError,
         [{ id := 3, filename := "f3.png", uploadDate := 0, fileType := none,
            hoaxId := none }]) := by
  decide

theorem sweep_ok (selected : List FileAttachmentRow) :
    ∀ (attachments : List FileAttachmentRow) (files : List String),
      (∀ x ∈ selected, x.filename ∈ files) →
      (selected.map FileAttachmentRow.filename).Nodup →
      sweep selected attachments files =
        (.ok (),
         attachments.filter (fun a => !selected.any (fun x => x.id == a.id)),
         files.filter (fun f => !selected.any (fun x => x.filename == f))) := by
  induction selected with
  | nil =>
    intro attachments files _ _
    simp [sweep]
  | cons x rest ih =>
    intro attachments files hfiles hnodup
    have hx : x.filename ∈ files := hfiles x (List.mem_cons_self x rest)
    rw [List.map_cons, List.nodup_cons] at hnodup
    have hrest : ∀ y ∈ rest, y.filename ∈ files.filter (fun f => !(f == x.filename)) := by
      intro y hy
      rw [List.mem_filter]
      refine ⟨hfiles y (List.mem_cons_of_mem x hy), ?_⟩
      have hne : y.filename ≠ x.filename := by
        intro e
        exact hnodup.1 (e ▸ List.mem_map_of_mem FileAttachmentRow.filename hy)
      simp [hne]
    have := ih (attachments.filter fun a => !(a.id == x.id))
      (files.filter fun f => !(f == x.filename)) hrest hnodup.2
    simp only [sweep, hx, if_true, this, List.filter_filter]
    refine Prod.ext rfl (Prod.ext ?_ ?_)
    · apply List.filter_congr
      intro a _
      by_cases h : a.id = x.id
      · simp [h]
      · have h2 : ¬ x.id = a.id := fun e => h e.symm
        have hb1 : (a.id == x.id) = false := by simp [h]
        have hb2 : (x.id == a.id) = false := by simp [h2]
        rw [hb1, List.any_cons, hb2]
        simp
    · apply List.filter_congr
      intro f _
      by_cases h : f = x.filename
      · simp [h]
      · have h2 : ¬ x.filename = f := fun e => h e.symm
        have hb1 : (f == x.filename) = false := by simp [h]
        have hb2 : (x.filename == f) = false := by simp [h2]
        rw [hb1, List.any_cons, hb2]
        simp

/-- The part of the sweep contract that holds: on a consistent store (primary
keys distinct, file names distinct, the file of every attachment the run
selects present in the folder), one run of the sweep at `now` succeeds; an attachment with `hoaxId` null and `uploadDate`
earlier than `now - 24 h` loses its row and its file; every other attachment
keeps its row and, if it had one, its file; and a file that belongs to no
selected attachment stays. -/
theorem removeUnusedAttachments_removes_exactly_unused (now : Int)
    (attachments : List FileAttachmentRow) (files : List String)
    (hpk : (attachments.map FileAttachmentRow.id).Nodup)
    (hnames : (attachments.map FileAttachmentRow.filename).Nodup)
    (hfiles : ∀ a ∈ attachments, unused (now - ONE_DAY) a = true → a.filename ∈ files) :
    (removeUnusedAttachments now attachments files).1 = .ok () ∧
      (∀ a ∈ attachments,
        (a.hoaxId = none ∧ a.uploadDate < now - ONE_DAY) →
          a ∉ (removeUnusedAttachments now attachments files).2.1 ∧
            a.filename ∉ (removeUnusedAttachments now attachments files).2.2) ∧
      (∀ a ∈ attachments,
        ¬ (a.hoaxId = none ∧ a.uploadDate < now - ONE_DAY) →
          a ∈ (removeUnusedAttachments now attachments files).2.1 ∧
            (a.filename ∈ files →
              a.filename ∈ (removeUnusedAttachments now attachments files).2.2)) ∧
      (∀ a ∈ (removeUnusedAttachments now attachments files).2.1, a ∈ attachments) ∧
      (∀ f ∈ files,
        (∀ a ∈ attachments, unused (now - ONE_DAY) a = true → a.filename ≠ f) →
          f ∈ (removeUnusedAttachments now attachments files).2.2) := by
  have hunused : ∀ a : FileAttachmentRow,
      unused (now - ONE_DAY) a = true ↔ (a.hoaxId = none ∧ a.uploadDate < now - ONE_DAY) := by
    intro a
    simp only [unused, Bool.and_eq_true, decide_eq_true_eq, Option.isNone_iff_eq_none]
    exact And.comm
  have hsub : (attachments.filter (unused (now - ONE_DAY))).Sublist attachments :=
    List.filter_sublist attachments
  have hsel : ∀ x ∈ attachments.filter (unused (now - ONE_DAY)), x.filename ∈ files := by
    intro x hx
    rw [List.mem_filter] at hx
    exact hfiles x hx.1 hx.2
  have hnd : ((attachments.filter (unused (now - ONE_DAY))).map
      FileAttachmentRow.filename).Nodup :=
    List.Nodup.sublist (List.Sublist.map _ hsub) hnames
  have hrun := sweep_ok (attachments.filter (unused (now - ONE_DAY))) attachments files hsel hnd
  have hidinj : ∀ x ∈ attachments, ∀ y ∈ attachments, x.id = y.id → x = y :=
    fun x hx y hy e => List.inj_on_of_nodup_map hpk hx hy e
  have hnameinj : ∀ x ∈ attachments, ∀ y ∈ attachments, x.filename = y.filename → x = y :=
    fun x hx y hy e => List.inj_on_of_nodup_map hnames hx hy e
  unfold removeUnusedAttachments
  simp only [hrun]
  refine ⟨trivial, ?_, ?_, ?_, ?_⟩
  · intro a ha hu
    have hu2 := (hunused a).mpr hu
    constructor
    · intro hmem
      rw [List.mem_filter] at hmem
      have := hmem.2
      simp only [Bool.not_eq_true', List.any_eq_false, List.mem_filter, beq_iff_eq, and_imp] at this
      exact this a ha hu2 rfl
    · intro hmem
      rw [List.mem_filter] at hmem
      have := hmem.2
      simp only [Bool.not_eq_true', List.any_eq_false, List.mem_filter, beq_iff_eq, and_imp] at this
      exact this a ha hu2 rfl
  · intro a ha hu
    have hu2 : ¬ unused (now - ONE_DAY) a = true := fun h => hu ((hunused a).mp h)
    constructor
    · rw [List.mem_filter]
      refine ⟨ha, ?_⟩
      simp only [Bool.not_eq_true', List.any_eq_false, List.mem_filter, beq_iff_eq, and_imp]
      intro x hx hxu hid
      exact hu2 (hidinj x hx a ha hid ▸ hxu)
    · intro hf
      rw [List.mem_filter]
      refine ⟨hf, ?_⟩
      simp only [Bool.not_eq_true', List.any_eq_false, List.mem_filter, beq_iff_eq, and_imp]
      intro x hx hxu hname
      exact hu2 (hnameinj x hx a ha hname ▸ hxu)
  · intro a ha
    exact (List.mem_filter.mp ha).1
  · intro f hf hno
    rw [List.mem_filter]
    refine ⟨hf, ?_⟩
    simp only [Bool.not_eq_true', List.any_eq_false, List.mem_filter, beq_iff_eq, and_imp]
    intro x hx hxu
    exact hno x hx hxu

theorem removeUnusedAttachments_removes_exactly_unused_witness :
    (removeUnusedAttachments 100000000
        [{ id := 1, filename := "a.png", uploadDate := 0, fileType := none, hoaxId := none },
         { id := 2, filename := "b.png", uploadDate := 96400000, fileType := none,
           hoaxId := none },
         { id := 3, filename := "c.png", uploadDate := 0, fileType := none, hoaxId := some 4 }]
        ["a.png", "b.png", "c.png"]).1 = .ok () ∧
      removeUnusedAttachments 100000000
        [{ id := 1, filename := "a.png", uploadDate := 0, fileType := none, hoaxId := none },
         { id := 2, filename := "b.png", uploadDate := 96400000, fileType := none,
           hoaxId := none },
         { id := 3, filename := "c.png", uploadDate := 0, fileType := none, hoaxId := some 4 }]
        ["a.png", "b.png", "c.png"] =
        (.ok (),
         [{ id := 2, filename := "b.png", uploadDate := 96400000, fileType := none,
            hoaxId := none },
          { id := 3, filename := "c.png", uploadDate := 0, fileType := none, hoaxId := some 4 }],
         ["b.png", "c.png"]) :=
  ⟨(removeUnusedAttachments_removes_exactly_unused 100000000
      [{ id := 1, filename := "a.png", uploadDate := 0, fileType := none, hoaxId := none },
       { id := 2, filename := "b.png", uploadDate := 96400000, fileType := none,
         hoaxId := none },
       { id := 3, filename := "c.png", uploadDate := 0, fileType := none, hoaxId := some 4 }]
      ["a.png", "b.png", "c.png"] (by decide) (by decide) (by decide)).1,
   by decide⟩

theorem sweep_missing_file (selected : List FileAttachmentRow) :
    ∀ (attachments : List FileAttachmentRow) (files : List String),
      (∃ x ∈ selected, x.filename ∉ files) →
      (sweep selected attachments files).1 = .error .ENOENT := by
  induction selected with
  | nil =>
    intro attachments files h
    obtain ⟨x, hx, _⟩ := h
    cases hx
  | cons a rest ih =>
    intro attachments files h
    by_cases ha : a.filename ∈ files
    · simp only [sweep, ha, if_true]
      apply ih
      obtain ⟨x, hx, hxf⟩ := h
      rcases List.mem_cons.mp hx with e | hmem
      · subst e
        exact absurd ha hxf
      · exact ⟨x, hmem, fun hin => hxf (List.mem_filter.mp hin).1⟩
    · simp [sweep, ha]

/-- C10 (as the code behaves): the sweep removes each file with a bare
`unlink`.  When the file of an attachment the run selects is missing from the
folder, the run fails with `ENOENT`; and when it is the file of the first
selected attachment, the run ends before anything is removed: every row and
every file stays, also those of the other attachments with `hoaxId` null and
`uploadDate` earlier than `now - 24 h`. -/
theorem removeUnusedAttachments_stops_at_missing_file (now : Int)
    (attachments : List FileAttachmentRow) (files : List String) :
    (∀ x ∈ attachments, x.hoaxId = none → x.uploadDate < now - ONE_DAY →
        x.filename ∉ files →
        (removeUnusedAttachments now attachments files).1 = .error .ENOENT) ∧
      (∀ a rest, attachments.filter (unused (now - ONE_DAY)) = a :: rest →
        a.filename ∉ files →
        removeUnusedAttachments now attachments files =
            (.error .ENOENT, attachments, files) ∧
          ∀ b ∈ rest, b.hoaxId = none ∧ b.uploadDate < now - ONE_DAY ∧
            b ∈ (removeUnusedAttachments now attachments files).2.1 ∧
            (b.filename ∈ files →
              b.filename ∈ (removeUnusedAttachments now attachments files).2.2)) := by
  constructor
  · intro x hx hnull hold hfile
    unfold removeUnusedAttachments
    apply sweep_missing_file
    refine ⟨x, ?_, hfile⟩
    rw [List.mem_filter]
    refine ⟨hx, ?_⟩
    simp [unused, hnull, hold]
  · intro a rest hsel hfile
    have hrun : removeUnusedAttachments now attachments files =
        (.error .ENOENT, attachments, files) := by
      unfold removeUnusedAttachments
      simp only [hsel, sweep, hfile, if_false]
    refine ⟨hrun, ?_⟩
    intro b hb
    have hmem : b ∈ attachments.filter (unused (now - ONE_DAY)) := by
      rw [hsel]
      exact List.mem_cons_of_mem a hb
    rw [List.mem_filter] at hmem
    have hu := hmem.2
    simp only [unused, Bool.and_eq_true, decide_eq_true_eq, Option.isNone_iff_eq_none] at hu
    rw [hrun]
    exact ⟨hu.2, hu.1, hmem.1, fun h => h⟩

theorem removeUnusedAttachments_stops_at_missing_file_witness :
    removeUnusedAttachments 100000000
        [{ id := 1, filename := "a.png", uploadDate := 0, fileType := none, hoaxId := none },
         { id := 2, filename := "b.png", uploadDate := 0, fileType := none, hoaxId := none }]
        ["b.png"] =
      (.error .ENOENT,
       [{ id := 1, filename := "a.png", uploadDate := 0, fileType := none, hoaxId := none },
        { id := 2, filename := "b.png", uploadDate := 0, fileType := none, hoaxId := none }],
       ["b.png"]) :=
  ((removeUnusedAttachments_stops_at_missing_file 100000000
      [{ id := 1, filename := "a.png", uploadDate := 0, fileType := none, hoaxId := none },
       { id := 2, filename := "b.png", uploadDate := 0, fileType := none, hoaxId := none }]
      ["b.png"]).2
    { id := 1, filename := "a.png", uploadDate := 0, fileType := none, hoaxId := none }
    [{ id := 2, filename := "b.png", uploadDate := 0, fileType := none, hoaxId := none }]
    (by decide) (by decide)).1

/-! ## Statements about the token cleanup -/

/-- C11: one run of the token cleanup at `now` leaves exactly the rows whose
`lastUsedAt` is not earlier than `now - 7 days`, each as it was and in the
order they had: a row is in the table afterwards if and only if it was there
before and is not expired. -/
theorem scheduleCleanup_deletes_exactly_expired (now : Int) (tokens : List TokenRow) :
    (∀ r, r ∈ scheduleCleanup now tokens ↔
        r ∈ tokens ∧ ¬ r.lastUsedAt < now - ONE_WEEK_IN_MILLIS) ∧
      (scheduleCleanup now tokens).Sublist tokens ∧
      scheduleCleanup now tokens =
        tokens.filter (fun r => decide (now - ONE_WEEK_IN_MILLIS ≤ r.lastUsedAt)) := by
  refine ⟨?_, ?_, ?_⟩
  · intro r
    simp [scheduleCleanup, List.mem_filter]
  · exact List.filter_sublist tokens
  · unfold scheduleCleanup
    apply List.filter_congr
    intro r _
    by_cases h : r.lastUsedAt < now - ONE_WEEK_IN_MILLIS
    · have h2 : ¬ now - ONE_WEEK_IN_MILLIS ≤ r.lastUsedAt := not_le.mpr h
      simp [h, h2]
    · have h2 : now - ONE_WEEK_IN_MILLIS ≤ r.lastUsedAt := not_lt.mp h
      simp [h, h2]

/-! ## Statements about the password rules -/

theorem lookahead_eq_any (cls : Char → Bool) (l : List Char)
    (h : ∀ c ∈ l, isLineTerminator c = false) : lookahead cls l = l.any cls := by
  induction l with
  | nil => rfl
  | cons c rest ih =>
    have hc : isLineTerminator c = false := h c (List.mem_cons_self c rest)
    have hrest := ih (fun x hx => h x (List.mem_cons_of_mem c hx))
    simp [lookahead, hc, hrest]

theorem matchesPasswordPattern_iff (s : String) :
    matchesPasswordPattern s = true ↔
      (∃ c ∈ s.data, isLowerAZ c = true) ∧ (∃ c ∈ s.data, isUpperAZ c = true) ∧
        (∃ c ∈ s.data, isDigit09 c = true) ∧ ∀ c ∈ s.data, isLineTerminator c = false := by
  by_cases hall : ∀ c ∈ s.data, isLineTerminator c = false
  · simp only [matchesPasswordPattern, lookahead_eq_any _ _ hall, Bool.and_eq_true,
      List.any_eq_true, List.all_eq_true, Bool.not_eq_true']
    constructor
    · rintro ⟨⟨⟨h1, h2⟩, h3⟩, h4⟩
      exact ⟨h1, h2, h3, h4⟩
    · rintro ⟨h1, h2, h3, h4⟩
      exact ⟨⟨⟨h1, h2⟩, h3⟩, h4⟩
  · constructor
    · intro h
      simp only [matchesPasswordPattern, Bool.and_eq_true, List.all_eq_true,
        Bool.not_eq_true'] at h
      exact absurd h.2 hall
    · rintro ⟨_, _, _, h4⟩
      exact absurd h4 hall

/-- C12 fails as stated: a password of nine characters with a lower-case
letter, an upper-case letter and a digit that ends in a line feed is reported
with `password_pattern`. -/
theorem validatePassword_rejects_line_feed :
    "Passw0rd\n" ≠ "" ∧ 6 ≤ "Passw0rd\n".length ∧ 6 ≤ validatorLength "Passw0rd\n" ∧
      (∃ c ∈ "Passw0rd\n".data, isLowerAZ c = true) ∧
      (∃ c ∈ "Passw0rd\n".data, isUpperAZ c = true) ∧
      (∃ c ∈ "Passw0rd\n".data, isDigit09 c = true) ∧
      validatePassword (.str "Passw0rd\n") = ["password_pattern"] := by
  refine ⟨by decide, by decide, by decide, ⟨'a', by decide, by decide⟩, ⟨'P', by decide, by decide⟩,
    ⟨'0', by decide, by decide⟩, by decide⟩

/-- C12 (amended): the password chain, the same at registration and at
password update, reports no error if and only if the password is a non-empty
string of at least 6 characters, the variation selectors U+FE0E and U+FE0F not
counted, that contains a letter `a`-`z`, a letter `A`-`Z`, a digit `0`-`9` and
no line terminator; otherwise it reports exactly one error, the first that
applies of `password_null` (absent, `null` or empty), `password_size` (fewer
than 6 characters, counted the same way) and `password_pattern`. -/
theorem validatePassword_outcome (p : BodyField) :
    (validatePassword p = [] ↔
        ∃ s, p = .str s ∧ s ≠ "" ∧ 6 ≤ validatorLength s ∧
          (∃ c ∈ s.data, isLowerAZ c = true) ∧ (∃ c ∈ s.data, isUpperAZ c = true) ∧
          (∃ c ∈ s.data, isDigit09 c = true) ∧ ∀ c ∈ s.data, isLineTerminator c = false) ∧
      ((p = .absent ∨ p = .null ∨ p = .str "") → validatePassword p = ["password_null"]) ∧
      (∀ s, p = .str s → s ≠ "" → validatorLength s < 6 →
        validatePassword p = ["password_size"]) ∧
      (∀ s, p = .str s → 6 ≤ validatorLength s →
        ¬ ((∃ c ∈ s.data, isLowerAZ c = true) ∧ (∃ c ∈ s.data, isUpperAZ c = true) ∧
            (∃ c ∈ s.data, isDigit09 c = true) ∧ ∀ c ∈ s.data, isLineTerminator c = false) →
        validatePassword p = ["password_pattern"]) := by
  have hlen : ∀ s : String, 6 ≤ validatorLength s → s ≠ "" := by
    intro s h e
    subst e
    exact absurd h (by decide)
  refine ⟨?_, ?_, ?_, ?_⟩
  · cases p with
    | absent => simp [validatePassword]
    | null => simp [validatePassword]
    | str s =>
      by_cases h0 : s = ""
      · simp [validatePassword, h0]
      · by_cases h6 : validatorLength s < 6
        · have : ¬ 6 ≤ validatorLength s := not_le.mpr h6
          simp [validatePassword, h0, h6, this]
        · have h6b : 6 ≤ validatorLength s := not_lt.mp h6
          by_cases hm : matchesPasswordPattern s = true
          · have := (matchesPasswordPattern_iff s).mp hm
            have hv : validatePassword (.str s) = [] := by
              simp [validatePassword, h0, h6, hm]
            rw [hv]
            exact ⟨fun _ => ⟨s, rfl, h0, h6b, this⟩, fun _ => rfl⟩
          · have hm2 : matchesPasswordPattern s = false := by simpa using hm
            have hv : validatePassword (.str s) = ["password_pattern"] := by
              simp [validatePassword, h0, h6, hm2]
            rw [hv]
            constructor
            · intro h
              cases h
            · rintro ⟨t, ht, _, _, hc⟩
              cases ht
              exact absurd ((matchesPasswordPattern_iff s).mpr hc) hm
  · rintro (h | h | h) <;> subst h <;> simp [validatePassword]
  · intro s hs h0 h6
    subst hs
    simp [validatePassword, h0, h6]
  · intro s hs h6 hc
    subst hs
    have h0 := hlen s h6
    have h6b : ¬ validatorLength s < 6 := not_lt.mpr h6
    have hm : matchesPasswordPattern s = false := by
      cases hmm : matchesPasswordPattern s with
      | false => rfl
      | true => exact absurd ((matchesPasswordPattern_iff s).mp hmm) hc
    simp [validatePassword, h0, h6b, hm]

/-! ## Statements about registration, reset request and activation -/

theorem toHex_length (bytes : List (Fin 256)) : (toHex bytes).length = 2 * bytes.length := by
  induction bytes with
  | nil => rfl
  | cons b rest ih =>
    simp only [toHex, List.length_cons, ih]
    omega

theorem randomString_length (bytes : List (Fin 256)) (length : Nat)
    (h : bytes.length = length) : (randomString bytes length).length = length := by
  simp only [randomString, String.length, List.length_take, toHex_length, h]
  omega

theorem randomString_ne_empty (bytes : List (Fin 256)) (h : bytes.length = 16) :
    randomString bytes 16 ≠ "" := by
  intro e
  have := randomString_length bytes 16 h
  rw [e] at this
  exact absurd this (by decide)

/-- C13: for a registration whose e-mail no stored user has, with the sixteen
random bytes `randomString(16)` draws: when the mail server rejects the
activation mail, `saveUser` fails with `EmailException` and the user table and
the mails sent are what they were; when it accepts, the table gains exactly one
row, appended, with the given username and e-mail and an activation token of
sixteen characters, and the activation mail with that token is sent. -/
theorem saveUser_atomic (hash : String → String) (bytes : List (Fin 256)) (pk : Nat)
    (transport : Mail → Bool) (body : Registration) (users : List UserRow)
    (outbox : List Mail)
    (hvalid : ∀ u ∈ users, u.email ≠ body.email) (hbytes : bytes.length = 16) :
    (transport (activationMail body.email (randomString bytes 16)) = false →
        saveUser hash bytes pk transport body users outbox =
          (.error .EmailException, users, outbox)) ∧
      (transport (activationMail body.email (randomString bytes 16)) = true →
        ∃ (token : String) (row : UserRow),
          token.length = 16 ∧ token ≠ "" ∧ row.username = body.username ∧
            row.email = body.email ∧ row.activationToken = some token ∧
            saveUser hash bytes pk transport body users outbox =
              (.ok (), users ++ [row], outbox ++ [activationMail body.email token])) := by
  have hnone : users.any (fun u => u.email == body.email) = false := by
    rw [List.any_eq_false]
    intro u hu
    simpa using hvalid u hu
  constructor
  · intro hfail
    simp [saveUser, User.create, hnone, sendAccountActivation, sendMail, hfail]
  · intro hsent
    refine ⟨randomString bytes 16,
      { id := pk, username := body.username, email := body.email,
        password := hash body.password, inactive := true,
        activationToken := some (randomString bytes 16), passwordResetToken := none,
        image := none },
      randomString_length bytes 16 hbytes, randomString_ne_empty bytes hbytes, rfl, rfl, rfl, ?_⟩
    simp [saveUser, User.create, hnone, sendAccountActivation, sendMail, hsent]

theorem saveUser_atomic_witness :
    saveUser (fun p => "hashed:" ++ p) (List.replicate 16 (0 : Fin 256)) 1 (fun _ => false)
        { username := "user1", email := "user1@mail.com", password := "P4ssword" } [] []
      = (.error .EmailException, [], []) :=
  (saveUser_atomic (fun p => "hashed:" ++ p) (List.replicate 16 (0 : Fin 256)) 1 (fun _ => false)
    { username := "user1", email := "user1@mail.com", password := "P4ssword" } [] []
    (by simp) (by decide)).1 rfl

/-- C14: `passwordResetRequest(email)` fails with
`NotFoundException('email_not_inuse')` and changes nothing when no user has the
e-mail.  When `findByEmail` resolves to `user`, the token drawn (sixteen
characters, so not empty) is stored on the rows with `user`'s key, and `user`
with that token is in the table, whether the mail goes out or not; when the
mail server accepts, the call succeeds and the mail sent to the e-mail carries
the token in its link; when it rejects, the call fails with `EmailException`
and nothing is sent. -/
theorem passwordResetRequest_outcome (bytes : List (Fin 256)) (transport : Mail → Bool)
    (email : String) (users : List UserRow) (outbox : List Mail)
    (hbytes : bytes.length = 16) :
    ((∀ u ∈ users, u.email ≠ email) →
        passwordResetRequest bytes transport email users outbox =
          (.error (.NotFoundException "email_not_inuse"), users, outbox)) ∧
      (∀ user, findByEmail email users = some user →
        randomString bytes 16 ≠ "" ∧
        { user with passwordResetToken := some (randomString bytes 16) } ∈
          (passwordResetRequest bytes transport email users outbox).2.1 ∧
        (∀ x ∈ (passwordResetRequest bytes transport email users outbox).2.1,
          x.id = user.id → x.passwordResetToken = some (randomString bytes 16)) ∧
        (∀ x, x.id ≠ user.id →
          (x ∈ (passwordResetRequest bytes transport email users outbox).2.1 ↔ x ∈ users)) ∧
        (transport (passwordResetMail email (randomString bytes 16)) = true →
          (passwordResetRequest bytes transport email users outbox).1 = .ok () ∧
          (passwordResetRequest bytes transport email users outbox).2.2 =
            outbox ++ [passwordResetMail email (randomString bytes 16)] ∧
          (passwordResetMail email (randomString bytes 16)).recipient = email ∧
          ∃ before after,
            (passwordResetMail email (randomString bytes 16)).html =
              before ++ randomString bytes 16 ++ after) ∧
        (transport (passwordResetMail email (randomString bytes 16)) = false →
          (passwordResetRequest bytes transport email users outbox).1 =
            .error .EmailException ∧
          (passwordResetRequest bytes transport email users outbox).2.2 = outbox)) := by
  constructor
  · intro hnone
    have hf : findByEmail email users = none := by
      unfold findByEmail
      rw [List.find?_eq_none]
      intro u hu
      simpa using hnone u hu
    simp [passwordResetRequest, hf]
  · intro user hu
    have hmem : user ∈ users := List.mem_of_find?_eq_some hu
    have hsaved : (passwordResetRequest bytes transport email users outbox).2.1 =
        users.map (fun u =>
          if u.id = user.id then { u with passwordResetToken := some (randomString bytes 16) }
          else u) := by
      by_cases ht : transport (passwordResetMail email (randomString bytes 16)) = true <;>
        simp [passwordResetRequest, hu, sendPasswordReset, sendMail, ht]
    refine ⟨randomString_ne_empty bytes hbytes, ?_, ?_, ?_, ?_, ?_⟩
    · rw [hsaved, List.mem_map]
      exact ⟨user, hmem, by simp⟩
    · intro x hx hid
      rw [hsaved, List.mem_map] at hx
      obtain ⟨y, _, hy⟩ := hx
      by_cases hyu : y.id = user.id
      · rw [if_pos hyu] at hy
        subst hy
        rfl
      · rw [if_neg hyu] at hy
        subst hy
        exact absurd hid hyu
    · intro x hne
      rw [hsaved, List.mem_map]
      constructor
      · rintro ⟨y, hy, hxy⟩
        by_cases hyu : y.id = user.id
        · rw [if_pos hyu] at hxy
          subst hxy
          exact absurd hyu hne
        · rw [if_neg hyu] at hxy
          subst hxy
          exact hy
      · intro hx
        exact ⟨x, hx, by rw [if_neg hne]⟩
    · intro ht
      refine ⟨?_, ?_, rfl, ?_⟩
      · simp [passwordResetRequest, hu, sendPasswordReset, sendMail, ht]
      · simp [passwordResetRequest, hu, sendPasswordReset, sendMail, ht]
      · exact ⟨_, _, rfl⟩
    · intro ht
      constructor <;> simp [passwordResetRequest, hu, sendPasswordReset, sendMail, ht]

theorem passwordResetRequest_outcome_witness :
    passwordResetRequest (List.replicate 16 (0 : Fin 256)) (fun _ => true) "user2@mail.com"
        [{ id := 1, username := "user1", email := "user1@mail.com", password := "hash",
           inactive := false, activationToken := none, passwordResetToken := none,
           image := none }] []
      = (.error (.NotFoundException "email_not_inuse"),
         [{ id := 1, username := "user1", email := "user1@mail.com", password := "hash",
            inactive := false, activationToken := none, passwordResetToken := none,
            image := none }], []) :=
  (passwordResetRequest_outcome (List.replicate 16 (0 : Fin 256)) (fun _ => true)
    "user2@mail.com"
    [{ id := 1, username := "user1", email := "user1@mail.com", password := "hash",
       inactive := false, activationToken := none, passwordResetToken := none,
       image := none }] [] (by decide)).1 (by decide)

/-- C15: when user `u` holds activation token `token`, in a table where the
primary key and that token each identify `u`, `activateUser(token)` succeeds
and the table it leaves (once the update it issues has run) is the old one
with `u`'s `activationToken` null and `inactive` false and every other row as
it was; when no user holds `token`, the call fails with
`InvalidTokenException` and the table is unchanged. -/
theorem activateUser_outcome (token : String) (users : List UserRow) :
    (∀ u ∈ users, u.activationToken = some token →
        (∀ x ∈ users, x.id = u.id → x = u) →
        (∀ x ∈ users, x.activationToken = some token → x = u) →
        activateUser token users =
          (.ok (), users.map fun x =>
            if x = u then { u with activationToken := none, inactive := false } else x)) ∧
      ((∀ u ∈ users, u.activationToken ≠ some token) →
        activateUser token users = (.error .InvalidTokenException, users)) := by
  constructor
  · intro u hu htok hpk huniq
    have hf : users.find? (fun x => x.activationToken == some token) = some u := by
      apply find?_eq_some_of_unique _ _ _ hu
      · simp [htok]
      · intro x hx hp
        exact huniq x hx (by simpa using hp)
    simp only [activateUser, hf]
    congr 1
    apply List.map_congr_left
    intro x hx
    by_cases hx2 : x = u
    · subst hx2
      simp
    · have : x.id ≠ u.id := fun e => hx2 (hpk x hx e)
      simp [hx2, this]
  · intro hnone
    have hf : users.find? (fun x => x.activationToken == some token) = none := by
      rw [List.find?_eq_none]
      intro u hu
      simpa using hnone u hu
    simp [activateUser, hf]

theorem activateUser_outcome_witness :
    activateUser "activation-token"
        [{ id := 1, username := "user1", email := "user1@mail.com", password := "hash",
           inactive := true, activationToken := some "activation-token",
           passwordResetToken := none, image := none },
         { id := 2, username := "user2", email := "user2@mail.com", password := "hash",
           inactive := true, activationToken := some "other-token",
           passwordResetToken := none, image := none }]
      = (.ok (),
         [{ id := 1, username := "user1", email := "user1@mail.com", password := "hash",
            inactive := false, activationToken := none,
            passwordResetToken := none, image := none },
          { id := 2, username := "user2", email := "user2@mail.com", password := "hash",
            inactive := true, activationToken := some "other-token",
            passwordResetToken := none, image := none }]) := by
  have h := (activateUser_outcome "activation-token"
    [{ id := 1, username := "user1", email := "user1@mail.com", password := "hash",
       inactive := true, activationToken := some "activation-token",
       passwordResetToken := none, image := none },
     { id := 2, username := "user2", email := "user2@mail.com", password := "hash",
       inactive := true, activationToken := some "other-token",
       passwordResetToken := none, image := none }]).1
    { id := 1, username := "user1", email := "user1@mail.com", password := "hash",
      inactive := true, activationToken := some "activation-token",
      passwordResetToken := none, image := none }
    (by simp) rfl (by simp) (by simp)
  rw [h]
  decide

/-! ## Statements about hoaxes -/

/-- C16: `deleteHoax(hoaxId, userId)` fails with
`ForbiddenException('unauthorized_hoax_delete')` and leaves the hoaxes, the
attachment rows and the attachment files as they were when no hoax has that id
and that owner.  When the requester owns the hoax, the call succeeds; the hoax
table loses the rows with that id and keeps every other row; each attachment
row that points to the hoax is deleted and the others are kept; and the file of
the attachment joined to the hoax is no longer in the folder. -/
theorem deleteHoax_owner_only (hoaxId userId : Nat) (hoaxes : List HoaxRow)
    (attachments : List FileAttachmentRow) (files : List String) :
    ((∀ h ∈ hoaxes, ¬ (h.id = hoaxId ∧ h.userId = some userId)) →
        deleteHoax hoaxId userId hoaxes attachments files =
          (.error (.ForbiddenException (some "unauthorized_hoax_delete")),
           hoaxes, attachments, files)) ∧
      ((∃ h ∈ hoaxes, h.id = hoaxId ∧ h.userId = some userId) →
        (deleteHoax hoaxId userId hoaxes attachments files).1 = .ok () ∧
        (∀ h, h ∈ (deleteHoax hoaxId userId hoaxes attachments files).2.1 ↔
          h ∈ hoaxes ∧ h.id ≠ hoaxId) ∧
        (∀ a, a ∈ (deleteHoax hoaxId userId hoaxes attachments files).2.2.1 ↔
          a ∈ attachments ∧ a.hoaxId ≠ some hoaxId) ∧
        (∀ a, attachments.find? (fun x => x.hoaxId == some hoaxId) = some a →
          a.filename ∉ (deleteHoax hoaxId userId hoaxes attachments files).2.2.2) ∧
        (∀ f ∈ (deleteHoax hoaxId userId hoaxes attachments files).2.2.2, f ∈ files)) := by
  constructor
  · intro hnone
    have hf : hoaxes.find? (fun h => h.id == hoaxId && h.userId == some userId) = none := by
      rw [List.find?_eq_none]
      intro h hh
      have := hnone h hh
      simpa using this
    simp [deleteHoax, hf]
  · rintro ⟨h0, hh0, hid0, hown0⟩
    have hsome : ∃ h, hoaxes.find? (fun h => h.id == hoaxId && h.userId == some userId)
        = some h := by
      cases hf : hoaxes.find? (fun h => h.id == hoaxId && h.userId == some userId) with
      | some h => exact ⟨h, rfl⟩
      | none =>
        rw [List.find?_eq_none] at hf
        have := hf h0 hh0
        simp [hid0, hown0] at this
    obtain ⟨h, hf⟩ := hsome
    have hp := List.find?_some hf
    simp only [Bool.and_eq_true, beq_iff_eq] at hp
    have hid : h.id = hoaxId := hp.1
    simp only [deleteHoax, hf, hid]
    refine ⟨trivial, ?_, ?_, ?_, ?_⟩
    · intro x
      simp [List.mem_filter]
    · intro a
      simp [List.mem_filter]
    · intro a ha
      rw [ha]
      simp only [deleteAttachment]
      by_cases hin : a.filename ∈ files
      · rw [if_pos hin]
        simp [List.mem_filter]
      · rw [if_neg hin]
        exact hin
    · intro f hfm
      cases hatt : attachments.find? (fun a => a.hoaxId == some hoaxId) with
      | none =>
        rw [hatt] at hfm
        exact hfm
      | some a =>
        rw [hatt] at hfm
        simp only [deleteAttachment] at hfm
        by_cases hin : a.filename ∈ files
        · rw [if_pos hin] at hfm
          exact (List.mem_filter.mp hfm).1
        · rw [if_neg hin] at hfm
          exact hfm

theorem deleteHoax_owner_only_witness :
    deleteHoax 5 1
        [{ id := 5, content := some "Hoax for user", timestamp := none, userId := some 1 },
         { id := 6, content := some "another", timestamp := none, userId := some 2 }]
        [{ id := 3, filename := "f3.png", uploadDate := 0, fileType := none,
           hoaxId := some 5 }]
        ["f3.png", "other.png"]
      = (.ok (),
         [{ id := 6, content := some "another", timestamp := none, userId := some 2 }],
         [], ["other.png"]) ∧
      deleteHoax 5 2
        [{ id := 5, content := some "Hoax for user", timestamp := none, userId := some 1 }]
        [] []
      = (.error (.ForbiddenException (some "unauthorized_hoax_delete")),
         [{ id := 5, content := some "Hoax for user", timestamp := none, userId := some 1 }],
         [], []) :=
  ⟨by decide,
   (deleteHoax_owner_only 5 2
     [{ id := 5, content := some "Hoax for user", timestamp := none, userId := some 1 }]
     [] []).1 (by decide)⟩

/-- C17 (as the code behaves): `saveHoax` appends one row with the body's
content and the owner's id, but the creation time is handed to `Hoax.create`
under the name `timestamps`, which is not a column of the model (the column is
`timestamp`), so the stored row's `timestamp` is null, whatever the clock
reads. -/
theorem saveHoax_stores_no_timestamp (now : Int) (pk : Nat) (body : HoaxBody)
    (user : AuthenticatedUser) (hoaxes : List HoaxRow)
    (attachments : List FileAttachmentRow) :
    (saveHoax now pk body user hoaxes attachments).1 = .ok () ∧
      (saveHoax now pk body user hoaxes attachments).2.1 =
        hoaxes ++ [{ id := pk, content := some body.content, timestamp := none,
                     userId := some user.id }] := by
  have hc : Hoax.create pk
      [("content", Value.text body.content), ("timestamps", Value.millis now),
       ("userId", Value.key user.id)] hoaxes =
      ({ id := pk, content := some body.content, timestamp := none, userId := some user.id },
       hoaxes ++ [{ id := pk, content := some body.content, timestamp := none,
                    userId := some user.id }]) := by
    have h1 : List.lookup "content"
        [("content", Value.text body.content), ("timestamps", Value.millis now),
         ("userId", Value.key user.id)] = some (Value.text body.content) := by
      simp [List.lookup]
    have h2 : List.lookup "timestamp"
        [("content", Value.text body.content), ("timestamps", Value.millis now),
         ("userId", Value.key user.id)] = none := by
      have e1 : ("timestamp" == "content") = false := by decide
      have e2 : ("timestamp" == "timestamps") = false := by decide
      have e3 : ("timestamp" == "userId") = false := by decide
      simp [List.lookup, e1, e2, e3]
    have h3 : List.lookup "userId"
        [("content", Value.text body.content), ("timestamps", Value.millis now),
         ("userId", Value.key user.id)] = some (Value.key user.id) := by
      have e1 : ("userId" == "content") = false := by decide
      have e2 : ("userId" == "timestamps") = false := by decide
      simp [List.lookup, e1, e2]
    simp only [Hoax.create, h1, h2, h3]
  unfold saveHoax
  simp only [hc]
  cases hfa : body.fileAttachment with
  | none => simp [truthy]
  | some a =>
    by_cases ht : truthy (some a) = true
    · simp only [ht, if_true]
      exact ⟨associateFileToHoax_ok_of_stored a pk _ attachments (by simp), trivial⟩
    · simp [ht]

/-! ## Statements about the upload reply, user lookup and user listing -/

/-- C18 (as the code behaves): a successful upload is answered with the body
`{ attachment: { id } }`: its only key is `attachment`, and the id of the new
row is the member `id` of that nested object, not a key of the body. -/
theorem postAttachment_reply_nests_id (type : Option (String × String))
    (bytes : List (Fin 256)) (pk : Nat) (now : Int) (attachments : List FileAttachmentRow)
    (files : List String) :
    (∃ body,
        (postAttachment false type bytes pk now attachments files).1 = .ok body ∧
        body.map Prod.fst = ["attachment"] ∧
        List.lookup "id" body = none ∧
        List.lookup "attachment" body = some (.object [("id", .number pk)])) ∧
      ∃ filename,
        (postAttachment false type bytes pk now attachments files).2.1 =
          attachments ++ [{ id := pk, filename := filename, uploadDate := now,
                            fileType := type.map Prod.fst, hoaxId := none }] := by
  have e1 : ("id" == "attachment") = false := by decide
  constructor
  · refine ⟨[("attachment", .object [("id", .number pk)])], ?_, rfl, ?_, ?_⟩
    · simp [postAttachment, saveAttachment]
    · simp [List.lookup, e1]
    · simp [List.lookup]
  · cases type with
    | none => exact ⟨randomString bytes 32, by simp [postAttachment, saveAttachment]⟩
    | some t =>
      exact ⟨randomString bytes 32 ++ "." ++ t.2, by simp [postAttachment, saveAttachment]⟩

/-- C19 (as the code behaves): `getUser(id)` resolves to the attributes of the
user with that id whether the user is active or not; for an inactive user it
does not fail with `NotFoundException`. -/
theorem getUser_returns_inactive_user (id : Nat) (users : List UserRow) (u : UserRow)
    (hu : users.find? (fun x => x.id == id) = some u) :
    getUser id users = .ok (userAttributes u) ∧
      (u.inactive = true →
        getUser id users ≠ .error (.NotFoundException "user_not_found")) := by
  have h1 : getUser id users = .ok (userAttributes u) := by simp [getUser, hu]
  refine ⟨h1, ?_⟩
  intro _
  rw [h1]
  intro h
  cases h

theorem getUser_returns_inactive_user_witness :
    getUser 1
        [{ id := 1, username := "user1", email := "user1@mail", password := "",
           inactive := true, activationToken := none, passwordResetToken := none,
           image := none }]
      = .ok [("id", .number 1), ("username", .string "user1"), ("email", .string "user1@mail"),
             ("image", .null)] :=
  (getUser_returns_inactive_user 1
    [{ id := 1, username := "user1", email := "user1@mail", password := "",
       inactive := true, activationToken := none, passwordResetToken := none,
       image := none }]
    { id := 1, username := "user1", email := "user1@mail", password := "",
      inactive := true, activationToken := none, passwordResetToken := none, image := none }
    (by decide)).1

/-- The part of C19 that holds: `getUser(id)` fails with
`NotFoundException('user_not_found')` when no user has the id. -/
theorem getUser_missing (id : Nat) (users : List UserRow) (h : ∀ x ∈ users, x.id ≠ id) :
    getUser id users = .error (.NotFoundException "user_not_found") := by
  have hf : users.find? (fun x => x.id == id) = none := by
    rw [List.find?_eq_none]
    intro x hx
    simpa using h x hx
  simp [getUser, hf]

/-- C20 (as the code behaves): the body of the user listing has exactly the
keys `content`, `totalPages`, `nextPage`, `prevPage`; it has no `page` and no
`size` member, whatever page and size the request asks for. -/
theorem listUsers_has_no_page_and_size (page size : Nat) (nextPage prevPage : Json)
    (authenticatedUser : Option AuthenticatedUser) (users : List UserRow) :
    (listUsers page size nextPage prevPage authenticatedUser users).map Prod.fst =
        ["content", "totalPages", "nextPage", "prevPage"] ∧
      List.lookup "page" (listUsers page size nextPage prevPage authenticatedUser users) = none ∧
      List.lookup "size" (listUsers page size nextPage prevPage authenticatedUser users) = none := by
  have p1 : ("page" == "content") = false := by decide
  have p2 : ("page" == "totalPages") = false := by decide
  have p3 : ("page" == "nextPage") = false := by decide
  have p4 : ("page" == "prevPage") = false := by decide
  have s1 : ("size" == "content") = false := by decide
  have s2 : ("size" == "totalPages") = false := by decide
  have s3 : ("size" == "nextPage") = false := by decide
  have s4 : ("size" == "prevPage") = false := by decide
  refine ⟨?_, ?_, ?_⟩
  · simp [listUsers, getAllUsers]
  · simp [listUsers, getAllUsers, List.lookup, p1, p2, p3, p4]
  · simp [listUsers, getAllUsers, List.lookup, s1, s2, s3, s4]

/-! ## Statements about the listings -/

/-- C21: the content of `getAllUsers` is the attribute objects of rows taken
from the user table, each of them active and, with an authenticated caller,
with an id other than the caller's; the count that goes into `totalPages` is
the number of active users other than the caller, and without a caller (ids
being positive) the number of active users. -/
theorem getAllUsers_excludes_inactive_and_caller (page size : Nat) (nextPage prevPage : Json)
    (authenticatedUser : Option AuthenticatedUser) (users : List UserRow) :
    (∃ rows : List UserRow,
        List.lookup "content" (getAllUsers page size nextPage prevPage authenticatedUser users) =
          some (.array (rows.map userAttributes)) ∧
        ∀ u ∈ rows, u ∈ users ∧ u.inactive = false ∧
          ∀ caller, authenticatedUser = some caller → u.id ≠ caller.id) ∧
      (∀ caller, authenticatedUser = some caller →
        List.lookup "totalPages" (getAllUsers page size nextPage prevPage authenticatedUser users) =
          some (.value (totalPages
            (users.filter fun u => !u.inactive && !(u.id == caller.id)).length size))) ∧
      (authenticatedUser = none → (∀ u ∈ users, u.id ≠ 0) →
        List.lookup "totalPages" (getAllUsers page size nextPage prevPage authenticatedUser users) =
          some (.value (totalPages (users.filter fun u => !u.inactive).length size))) := by
  have e1 : ("totalPages" == "content") = false := by decide
  refine ⟨?_, ?_, ?_⟩
  · cases authenticatedUser with
    | none =>
      refine ⟨((users.filter fun u => !u.inactive && !(u.id == 0)).drop (page * size)).take size,
        by simp [getAllUsers, List.lookup], ?_⟩
      intro u hu
      have hm := List.mem_of_mem_drop (List.mem_of_mem_take hu)
      rw [List.mem_filter] at hm
      refine ⟨hm.1, ?_, ?_⟩
      · have := hm.2
        simp only [Bool.and_eq_true, Bool.not_eq_true'] at this
        exact this.1
      · intro caller hc
        cases hc
    | some caller =>
      refine ⟨((users.filter fun u => !u.inactive && !(u.id == caller.id)).drop
          (page * size)).take size, by simp [getAllUsers, List.lookup], ?_⟩
      intro u hu
      have hm := List.mem_of_mem_drop (List.mem_of_mem_take hu)
      rw [List.mem_filter] at hm
      have h2 := hm.2
      simp only [Bool.and_eq_true, Bool.not_eq_true', beq_eq_false_iff_ne] at h2
      refine ⟨hm.1, h2.1, ?_⟩
      intro c hc
      cases hc
      exact h2.2
  · intro caller hc
    subst hc
    simp [getAllUsers, List.lookup, e1]
  · intro hnone hpos
    subst hnone
    have hf : (users.filter fun u => !u.inactive && !(u.id == 0)) =
        users.filter fun u => !u.inactive := by
      apply List.filter_congr
      intro u hu
      have : (u.id == 0) = false := by simpa using hpos u hu
      simp [this]
    simp [getAllUsers, List.lookup, e1, hf]

theorem totalPages_ceiling (n size : Nat) (hsize : 1 ≤ size) :
    ∃ t, totalPages n size = .number t ∧ (n = 0 → t = 0) ∧
      (0 < n → n ≤ t * size ∧ (t - 1) * size < n) := by
  have hs : size ≠ 0 := by omega
  refine ⟨(n + size - 1) / size, by simp [totalPages, hs], ?_, ?_⟩
  · intro h0
    subst h0
    apply Nat.div_eq_of_lt
    omega
  · intro hn
    have hdm := Nat.div_add_mod (n + size - 1) size
    have hr : (n + size - 1) % size < size := Nat.mod_lt _ (by omega)
    generalize (n + size - 1) / size = q at hdm ⊢
    generalize (n + size - 1) % size = r at hdm hr
    rw [Nat.sub_mul, Nat.one_mul, Nat.mul_comm q size]
    generalize size * q = m at hdm ⊢
    constructor
    · omega
    · omega

theorem findAndCountAll_timestamps_rejected (userId : Option Nat) (limit offset : Nat)
    (users : List UserRow) (hoaxes : List HoaxRow) (attachments : List FileAttachmentRow) :
    Hoax.findAndCountAll ["id", "content", "timestamps"] userId limit offset users hoaxes
      attachments = .error .DatabaseError := by
  have h : (["id", "content", "timestamps"].all fun name => decide (name ∈ hoaxColumns))
      = false := by decide
  simp only [Hoax.findAndCountAll, h]
  rfl

theorem getHoaxes_rejects (page size : Nat) (nextPage prevPage : Json) (userId : Option Nat)
    (users : List UserRow) (hoaxes : List HoaxRow) (attachments : List FileAttachmentRow) :
    getHoaxes page size nextPage prevPage userId users hoaxes attachments =
        .error (.NotFoundException "user_not_found") ∨
      getHoaxes page size nextPage prevPage userId users hoaxes attachments =
        .error .DatabaseError := by
  unfold getHoaxes
  simp only [findAndCountAll_timestamps_rejected]
  cases userId with
  | none => right; simp
  | some id =>
    cases hf : (users.find? fun u => u.id == id) with
    | none => left; simp [hf]
    | some u => right; simp [hf]

/-- C22 (as the code behaves): for a page size from 1 to 10 the `totalPages`
of `getAllUsers` is the ceiling of the number `n` of matching users over the
size (0 for `n = 0`, and otherwise `totalPages * size >= n > (totalPages - 1) *
size`); `getHoaxes` computes the same expression but never reaches it, because
its query asks for the column `timestamps`, which the table does not have, and
is rejected: `getHoaxes` reports no `totalPages` for any input. -/
theorem totalPages_of_getAllUsers_and_getHoaxes (page size : Nat) (nextPage prevPage : Json)
    (authenticatedUser : Option AuthenticatedUser) (userId : Option Nat)
    (users : List UserRow) (hoaxes : List HoaxRow) (attachments : List FileAttachmentRow)
    (hsize : 1 ≤ size ∧ size ≤ 10) :
    (∃ n t : Nat,
        n = (users.filter fun u => !u.inactive &&
              !(u.id == match authenticatedUser with
                        | some user => user.id
                        | none => 0)).length ∧
        List.lookup "totalPages" (getAllUsers page size nextPage prevPage authenticatedUser users) =
          some (.value (.number t)) ∧
        (n = 0 → t = 0) ∧ (0 < n → n ≤ t * size ∧ (t - 1) * size < n)) ∧
      ∀ body, getHoaxes page size nextPage prevPage userId users hoaxes attachments ≠ .ok body := by
  have e1 : ("totalPages" == "content") = false := by decide
  constructor
  · obtain ⟨t, ht, h0, hpos⟩ := totalPages_ceiling
      (users.filter fun u => !u.inactive &&
        !(u.id == match authenticatedUser with
                  | some user => user.id
                  | none => 0)).length size hsize.1
    refine ⟨_, t, rfl, ?_, h0, hpos⟩
    rw [← ht]
    simp [getAllUsers, List.lookup, e1]
  · intro body hb
    rcases getHoaxes_rejects page size nextPage prevPage userId users hoaxes attachments with h | h
    · rw [h] at hb
      cases hb
    · rw [h] at hb
      cases hb

theorem totalPages_of_getAllUsers_and_getHoaxes_witness :
    getHoaxes 0 10 (.number 1) .null none
        [{ id := 1, username := "user1", email := "user1@mail.com", password := "hash",
           inactive := false, activationToken := none, passwordResetToken := none,
           image := none }]
        [{ id := 1, content := some "hoax content", timestamp := none, userId := some 1 }] []
      ≠ .ok [] :=
  (totalPages_of_getAllUsers_and_getHoaxes 0 10 (.number 1) .null none none
    [{ id := 1, username := "user1", email := "user1@mail.com", password := "hash",
       inactive := false, activationToken := none, passwordResetToken := none,
       image := none }]
    [{ id := 1, content := some "hoax content", timestamp := none, userId := some 1 }] []
    (by decide)).2 []

/-- C23 (as the code behaves): `getHoaxes` returns no content at all.  Its
query selects the attribute `timestamps` while the column of the model is
`timestamp`, so the database rejects it for every input; the call fails with
that rejection, or with `NotFoundException('user_not_found')` when a user id is
given that no user has. -/
theorem getHoaxes_returns_no_rows (page size : Nat) (nextPage prevPage : Json)
    (userId : Option Nat) (users : List UserRow) (hoaxes : List HoaxRow)
    (attachments : List FileAttachmentRow) :
    (∀ body, getHoaxes page size nextPage prevPage userId users hoaxes attachments ≠ .ok body) ∧
      getHoaxes page size nextPage prevPage none users hoaxes attachments =
        .error .DatabaseError ∧
      (∀ id u, users.find? (fun x => x.id == id) = some u →
        getHoaxes page size nextPage prevPage (some id) users hoaxes attachments =
          .error .DatabaseError) := by
  refine ⟨?_, ?_, ?_⟩
  · intro body hb
    rcases getHoaxes_rejects page size nextPage prevPage userId users hoaxes attachments with h | h
    · rw [h] at hb
      cases hb
    · rw [h] at hb
      cases hb
  · simp [getHoaxes, findAndCountAll_timestamps_rejected]
  · intro id u hu
    simp [getHoaxes, findAndCountAll_timestamps_rejected, hu]

/-- The part of C23 that the row callback does right: on a plain row without
attachment the key `fileAttachment` is removed and every other member stays, in
order; a plain row with an attachment is returned as it is. -/
theorem omitAbsentAttachment_plainHoax (attributes : List String) (h : HoaxRow) (u : UserRow)
    (a : FileAttachmentRow) (hattr : "fileAttachment" ∉ attributes) :
    omitAbsentAttachment (plainHoax attributes h u none) =
        attributes.map (fun name => (name, Member.value (hoaxAttribute h name))) ++
          [("user", .object (userAttributes u))] ∧
      omitAbsentAttachment (plainHoax attributes h u (some a)) =
        plainHoax attributes h u (some a) := by
  have e1 : ("fileAttachment" == "user") = false := by decide
  have e2 : ("user" == "fileAttachment") = false := by decide
  have hl : ∀ m : Member,
      List.lookup "fileAttachment"
        (attributes.map (fun name => (name, Member.value (hoaxAttribute h name))) ++
          [("user", .object (userAttributes u)), ("fileAttachment", m)]) = some m := by
    intro m
    induction attributes with
    | nil => simp [List.lookup, e1]
    | cons x rest ih =>
      have hx : ("fileAttachment" == x) = false := by
        have : x ≠ "fileAttachment" := fun e => hattr (e ▸ List.mem_cons_self x rest)
        simpa using fun e => this e.symm
      have hrest : "fileAttachment" ∉ rest := fun hm => hattr (List.mem_cons_of_mem x hm)
      simp only [List.map_cons, List.cons_append, List.lookup, hx]
      exact ih hrest
  constructor
  · simp only [omitAbsentAttachment, plainHoax, hl, Member.falsy, if_true]
    rw [List.filter_append]
    have h1 : (attributes.map (fun name => (name, Member.value (hoaxAttribute h name)))).filter
        (fun member => !(member.1 == "fileAttachment")) =
        attributes.map (fun name => (name, Member.value (hoaxAttribute h name))) := by
      rw [List.filter_eq_self]
      intro m hm
      rw [List.mem_map] at hm
      obtain ⟨x, hx, rfl⟩ := hm
      have : x ≠ "fileAttachment" := fun e => hattr (e ▸ hx)
      simpa using this
    rw [h1]
    simp [List.filter, e2]
  · simp only [omitAbsentAttachment, plainHoax, hl, Member.falsy]
    rfl

/-! ## Statements about user deletion and logout -/

/-- C24 (as the code behaves): when the user's `image` names a file that is
not in the profile folder, `deleteProfileImage` rejects with `ENOENT`,
`deleteUser` fails with it before `destroy`, and the user row, the tokens, the
hoaxes, the attachments and the files are all as they were. -/
theorem deleteUser_fails_on_missing_image (id : Nat) (s : Store) (u : UserRow) (image : String)
    (hu : s.users.find? (fun x => x.id == id) = some u)
    (himage : u.image = some image) (hne : image ≠ "") (hmissing : image ∉ s.profileFiles) :
    deleteUser id s = (.error .ENOENT, s) := by
  simp [deleteUser, hu, deleteUserFiles, himage, hne, deleteProfileImage, hmissing]

theorem deleteUser_fails_on_missing_image_witness :
    deleteUser 1
        { users := [{ id := 1, username := "user1", email := "user1@mail.com",
                      password := "hash", inactive := false, activationToken := none,
                      passwordResetToken := none, image := some "profile-image-user1" }],
          tokens := [{ id := 1, token := "token-1", userId := 1, lastUsedAt := 0 }],
          hoaxes := [], attachments := [], profileFiles := [], attachmentFiles := [] }
      = (.error .ENOENT,
         { users := [{ id := 1, username := "user1", email := "user1@mail.com",
                       password := "hash", inactive := false, activationToken := none,
                       passwordResetToken := none, image := some "profile-image-user1" }],
           tokens := [{ id := 1, token := "token-1", userId := 1, lastUsedAt := 0 }],
           hoaxes := [], attachments := [], profileFiles := [], attachmentFiles := [] }) :=
  deleteUser_fails_on_missing_image 1 _
    { id := 1, username := "user1", email := "user1@mail.com", password := "hash",
      inactive := false, activationToken := none, passwordResetToken := none,
      image := some "profile-image-user1" }
    "profile-image-user1" (by decide) rfl (by decide) (by decide)

theorem deleteAttachment_eq_filter (filename : String) (files : List String) :
    deleteAttachment filename files = files.filter fun f => !(f == filename) := by
  unfold deleteAttachment
  by_cases h : filename ∈ files
  · rw [if_pos h]
  · rw [if_neg h]
    symm
    rw [List.filter_eq_self]
    intro f hf
    have : f ≠ filename := fun e => h (e ▸ hf)
    simpa using this

theorem foldl_deleteAttachment (selected : List FileAttachmentRow) :
    ∀ files : List String,
      selected.foldl (fun files a => deleteAttachment a.filename files) files =
        files.filter fun f => !selected.any fun a => a.filename == f := by
  induction selected with
  | nil => intro files; simp
  | cons a rest ih =>
    intro files
    rw [List.foldl_cons, ih, deleteAttachment_eq_filter, List.filter_filter]
    apply List.filter_congr
    intro f _
    by_cases h : f = a.filename
    · subst h
      simp
    · have h2 : ¬ a.filename = f := fun e => h e.symm
      have hb1 : (f == a.filename) = false := by simp [h]
      have hb2 : (a.filename == f) = false := by simp [h2]
      rw [hb1, List.any_cons, hb2]
      simp

/-- The part of C24 that holds: when the user exists and the profile image, if
one is set, is in the profile folder, `deleteUser` completes; the user row, the
user's tokens, the user's hoaxes and the attachment rows of those hoaxes are
deleted and every other row is kept; the image file and the files named by
those attachments are removed and every other file is kept. -/
theorem deleteUser_removes_everything (id : Nat) (s : Store) (u : UserRow)
    (hu : s.users.find? (fun x => x.id == id) = some u)
    (himage : ∀ image, u.image = some image → image ≠ "" → image ∈ s.profileFiles) :
    deleteUser id s =
      (.ok (),
       { users := s.users.filter fun x => !(x.id == id),
         tokens := s.tokens.filter fun t => !(t.userId == id),
         hoaxes := s.hoaxes.filter fun h => !(h.userId == some id),
         attachments := s.attachments.filter fun a =>
           !(s.hoaxes.any fun h => a.hoaxId == some h.id && h.userId == some id),
         profileFiles := s.profileFiles.filter fun f => !(some f == u.image && !(f == "")),
         attachmentFiles := s.attachmentFiles.filter fun f =>
           !(attachmentsOfUser id s).any fun a => a.filename == f }) := by
  have hid : u.id = id := by
    have := List.find?_some hu
    simpa using this
  have hfiles : ∃ profileFiles,
      (match u.image with
        | none => (Except.ok s.profileFiles : Except Exception (List String))
        | some image =>
          if image = "" then .ok s.profileFiles else deleteProfileImage image s.profileFiles)
        = .ok profileFiles ∧
      profileFiles = s.profileFiles.filter fun f => !(some f == u.image && !(f == "")) := by
    cases hi : u.image with
    | none =>
      refine ⟨s.profileFiles, rfl, ?_⟩
      symm
      rw [List.filter_eq_self]
      intro f _
      simp
    | some image =>
      by_cases he : image = ""
      · refine ⟨s.profileFiles, by simp [he], ?_⟩
        symm
        rw [List.filter_eq_self]
        intro f _
        by_cases hf : f = image
        · subst hf
          simp [he]
        · simp [hf]
      · have hin := himage image hi he
        refine ⟨s.profileFiles.filter fun f => !(f == image),
          by simp [he, deleteProfileImage, hin], ?_⟩
        apply List.filter_congr
        intro f _
        by_cases hf : f = image
        · subst hf
          simp [he]
        · simp [hf]
  obtain ⟨profileFiles, h1, h2⟩ := hfiles
  simp only [deleteUser, hu, deleteUserFiles, h1, User.destroy, foldl_deleteAttachment, hid, h2]

/-- C25: the logout handler answers 200 for every `Authorization` header and
without one; without a header the token table is untouched, and for the header
`Bearer ` followed by `t` the table keeps exactly the rows whose token string
is not `t`, each as it was and in order. -/
theorem postLogout_always_succeeds (authorization : Option String) (tokens : List TokenRow)
    (t : String) :
    (postLogout authorization tokens).1 = 200 ∧
      (postLogout none tokens).2 = tokens ∧
      (∀ r, r ∈ (postLogout (some ("Bearer " ++ t)) tokens).2 ↔ r ∈ tokens ∧ r.token ≠ t) ∧
      ((postLogout (some ("Bearer " ++ t)) tokens).2).Sublist tokens := by
  refine ⟨rfl, rfl, ?_, ?_⟩
  · intro r
    simp [postLogout, logout_bearer, deleteToken, List.mem_filter]
  · simp only [postLogout, logout_bearer, deleteToken]
    exact List.filter_sublist tokens

/-! ## Statements about the timers -/

theorem running_setInterval (callback other : Callback) (delay now : Int)
    (timers : List Timer) :
    running callback (setInterval other delay now timers) =
      running callback timers + (if other = callback then 1 else 0) := by
  by_cases h : other = callback
  · subst h
    simp [running, setInterval, List.filter_append]
  · simp [running, setInterval, List.filter_append, h]

/-- C26 fails as stated: two calls of `scheduleCleanup()` in a process without
timers leave two token-cleanup timers running. -/
theorem scheduleCleanup_twice_two_timers :
    running .tokenCleanup (scheduleCleanupCall 0 (scheduleCleanupCall 0 [])) = 2 := by
  decide

/-- C26 (amended): every call of `scheduleCleanup()` starts one more hourly
token-cleanup timer, so `n` calls leave `n` more of them running; the bootstrap
of `index.js` calls it once, and a process started that way has one more
token-cleanup timer than before, exactly one when it had none. -/
theorem scheduleCleanup_adds_one_timer_per_call (now : Int) (n : Nat) (timers : List Timer)
    (p : Process) :
    running .tokenCleanup (scheduleCleanupCall now timers) = running .tokenCleanup timers + 1 ∧
      running .tokenCleanup (scheduleCleanupCalls now n timers) =
        running .tokenCleanup timers + n ∧
      running .tokenCleanup (bootstrap now p).timers = running .tokenCleanup p.timers + 1 := by
  have h1 : ∀ ts, running .tokenCleanup (scheduleCleanupCall now ts) =
      running .tokenCleanup ts + 1 := by
    intro ts
    simp [scheduleCleanupCall, running_setInterval]
  refine ⟨h1 timers, ?_, ?_⟩
  · induction n generalizing timers with
    | zero => rfl
    | succ k ih =>
      simp only [scheduleCleanupCalls]
      rw [ih, h1]
      omega
  · simp [bootstrap, removeUnusedAttachmentsCall, scheduleCleanupCall, running_setInterval]

/-- C27 fails as stated: a process that starts with an orphaned attachment
uploaded more than 24 hours before still has its row and its file after the
bootstrap calls, although a sweep at that time would remove both. -/
theorem removeUnusedAttachments_call_sweeps_nothing :
    (bootstrap 100000000
        { timers := [], tokens := [],
          attachments := [{ id := 1, filename := "a.png", uploadDate := 0, fileType := none,
                            hoaxId := none }],
          files := ["a.png"] }).attachments =
        [{ id := 1, filename := "a.png", uploadDate := 0, fileType := none, hoaxId := none }] ∧
      (bootstrap 100000000
        { timers := [], tokens := [],
          attachments := [{ id := 1, filename := "a.png", uploadDate := 0, fileType := none,
                            hoaxId := none }],
          files := ["a.png"] }).files = ["a.png"] ∧
      removeUnusedAttachments 100000000
        [{ id := 1, filename := "a.png", uploadDate := 0, fileType := none, hoaxId := none }]
        ["a.png"] = (.ok (), [], []) := by
  decide

/-- C27 (amended): the call `removeUnusedAttachments()` at process start sweeps
nothing; it starts a timer with a delay of 24 hours that is due for the first
time 24 hours after the call.  When that timer fires, the sweep runs with the
clock at the due time, and the timer is due again 24 hours later. -/
theorem removeUnusedAttachments_sweeps_on_timer (now : Int) (tokens : List TokenRow)
    (attachments : List FileAttachmentRow) (files : List String) :
    (bootstrap now { timers := [], tokens := tokens, attachments := attachments,
                     files := files }).attachments = attachments ∧
      (bootstrap now { timers := [], tokens := tokens, attachments := attachments,
                       files := files }).files = files ∧
      (bootstrap now { timers := [], tokens := tokens, attachments := attachments,
                       files := files }).timers =
        [{ callback := .tokenCleanup, delay := 60 * 60 * 1000, due := now + 60 * 60 * 1000 },
         { callback := .attachmentSweep, delay := ONE_DAY, due := now + ONE_DAY }] ∧
      (fire 1 (bootstrap now { timers := [], tokens := tokens, attachments := attachments,
                               files := files })).attachments =
        (removeUnusedAttachments (now + ONE_DAY) attachments files).2.1 ∧
      (fire 1 (bootstrap now { timers := [], tokens := tokens, attachments := attachments,
                               files := files })).files =
        (removeUnusedAttachments (now + ONE_DAY) attachments files).2.2 ∧
      (fire 1 (bootstrap now { timers := [], tokens := tokens, attachments := attachments,
                               files := files })).timers =
        [{ callback := .tokenCleanup, delay := 60 * 60 * 1000, due := now + 60 * 60 * 1000 },
         { callback := .attachmentSweep, delay := ONE_DAY, due := now + ONE_DAY + ONE_DAY }] := by
  refine ⟨rfl, rfl, rfl, ?_, ?_, ?_⟩ <;>
    simp [fire, bootstrap, removeUnusedAttachmentsCall, scheduleCleanupCall, setInterval]

/-! ## Statements about random strings and expiry -/

theorem hexDigit_mem : ∀ k, k < 16 → hexDigit k ∈ "0123456789abcdef".data := by
  decide

theorem toHex_mem (bytes : List (Fin 256)) :
    ∀ c ∈ toHex bytes, c ∈ "0123456789abcdef".data := by
  induction bytes with
  | nil =>
    intro c hc
    cases hc
  | cons b rest ih =>
    intro c hc
    simp only [toHex, List.mem_cons] at hc
    rcases hc with h | h | h
    · rw [h]
      exact hexDigit_mem _ (by have := b.isLt; omega)
    · rw [h]
      exact hexDigit_mem _ (Nat.mod_lt _ (by decide))
    · exact ih c h

/-- C28: with the `n` bytes `randomBytes(n)` returns, `randomString(n)` is a
string of exactly `n` characters, each one of `0123456789abcdef`; and
`createToken`, which draws `randomString(32)`, returns a string of 32
characters and appends one row that holds this same string, `lastUsedAt = now`
and `userId = user.id`. -/
theorem randomString_hex_of_length (bytes : List (Fin 256)) (n : Nat) (drawn : List (Fin 256))
    (pk : Nat) (now : Int) (user : UserRow) (tokens : List TokenRow)
    (hbytes : bytes.length = n) (hdrawn : drawn.length = 32) :
    (randomString bytes n).length = n ∧
      (∀ c ∈ (randomString bytes n).data, c ∈ "0123456789abcdef".data) ∧
      (createToken drawn pk now user tokens).1.length = 32 ∧
      (createToken drawn pk now user tokens).2 =
        tokens ++ [{ id := pk,
                     token := (createToken drawn pk now user tokens).1,
                     userId := user.id, lastUsedAt := now }] := by
  refine ⟨randomString_length bytes n hbytes, ?_, ?_, rfl⟩
  · intro c hc
    simp only [randomString] at hc
    exact toHex_mem bytes c (List.mem_of_mem_take hc)
  · simp only [createToken]
    exact randomString_length drawn 32 hdrawn

theorem randomString_hex_of_length_witness :
    (randomString [⟨171, by decide⟩, ⟨5, by decide⟩] 2).length = 2 ∧
      randomString [⟨171, by decide⟩, ⟨5, by decide⟩] 2 = "ab" ∧
      (createToken (List.replicate 32 (0 : Fin 256)) 1 0
        { id := 1, username := "user1", email := "user1@mail.com", password := "hash",
          inactive := false, activationToken := none, passwordResetToken := none,
          image := none } []).1.length = 32 ∧
      createToken (List.replicate 32 (0 : Fin 256)) 1 0
        { id := 1, username := "user1", email := "user1@mail.com", password := "hash",
          inactive := false, activationToken := none, passwordResetToken := none,
          image := none } [] =
        ("00000000000000000000000000000000",
         [{ id := 1, token := "00000000000000000000000000000000", userId := 1,
            lastUsedAt := 0 }]) :=
  ⟨(randomString_hex_of_length [⟨171, by decide⟩, ⟨5, by decide⟩] 2
      (List.replicate 32 (0 : Fin 256)) 1 0
      { id := 1, username := "user1", email := "user1@mail.com", password := "hash",
        inactive := false, activationToken := none, passwordResetToken := none,
        image := none } [] rfl (by decide)).1,
   by decide,
   (randomString_hex_of_length [⟨171, by decide⟩, ⟨5, by decide⟩] 2
      (List.replicate 32 (0 : Fin 256)) 1 0
      { id := 1, username := "user1", email := "user1@mail.com", password := "hash",
        inactive := false, activationToken := none, passwordResetToken := none,
        image := none } [] rfl (by decide)).2.2.1,
   by decide⟩

/-- C29: for a stored row whose token string identifies it, the cleanup run at
`now` deletes the row if and only if `verify` at `now` rejects its string, and
keeps it if and only if `verify` accepts it; a row used exactly 7 days before
`now` is kept and accepted. -/
theorem cleanup_and_verify_complementary (now now2 : Int) (tokens : List TokenRow)
    (r : TokenRow) (hr : r ∈ tokens)
    (htoken : ∀ x ∈ tokens, x.token = r.token → x = r) :
    (r ∉ scheduleCleanup now tokens ↔
        (verify now now2 r.token tokens).1 = .error .TypeError) ∧
      (r ∈ scheduleCleanup now tokens ↔
        (verify now now2 r.token tokens).1 = .ok { id := r.userId }) ∧
      (r.lastUsedAt = now - ONE_WEEK_IN_MILLIS →
        r ∈ scheduleCleanup now tokens ∧
          (verify now now2 r.token tokens).1 = .ok { id := r.userId }) := by
  have hmem : r ∈ scheduleCleanup now tokens ↔ ¬ r.lastUsedAt < now - ONE_WEEK_IN_MILLIS := by
    simp [scheduleCleanup, List.mem_filter, hr]
  have hexp : r.lastUsedAt < now - ONE_WEEK_IN_MILLIS →
      (verify now now2 r.token tokens).1 = .error .TypeError := by
    intro h
    have hf := find?_unexpired_eq_none (now - ONE_WEEK_IN_MILLIS) r.token tokens
      (fun x hx ht => by rw [htoken x hx ht]; exact h)
    simp [verify, hf]
  have hfresh : ¬ r.lastUsedAt < now - ONE_WEEK_IN_MILLIS →
      (verify now now2 r.token tokens).1 = .ok { id := r.userId } := by
    intro h
    have hle : now - ONE_WEEK_IN_MILLIS ≤ r.lastUsedAt := not_lt.mp h
    have hf : tokens.find? (unexpired (now - ONE_WEEK_IN_MILLIS) r.token) = some r := by
      apply find?_eq_some_of_unique _ _ _ hr
      · simp [unexpired, hle]
      · intro x hx hp
        simp only [unexpired, Bool.and_eq_true, beq_iff_eq, decide_eq_true_eq] at hp
        exact htoken x hx hp.1
    simp [verify, hf]
  refine ⟨?_, ?_, ?_⟩
  · rw [hmem, not_not]
    constructor
    · exact hexp
    · intro hv
      by_contra h
      rw [hfresh h] at hv
      cases hv
  · rw [hmem]
    constructor
    · exact hfresh
    · intro hv h
      rw [hexp h] at hv
      cases hv
  · intro h7
    have h : ¬ r.lastUsedAt < now - ONE_WEEK_IN_MILLIS := by
      rw [h7]
      exact lt_irrefl _
    exact ⟨hmem.mpr h, hfresh h⟩

theorem cleanup_and_verify_complementary_witness :
    ({ id := 1, token := "test-token", userId := 7, lastUsedAt := 95200000 } : TokenRow) ∈
        scheduleCleanup 700000000
          [{ id := 1, token := "test-token", userId := 7, lastUsedAt := 95200000 }] ∧
      (verify 700000000 700000001 "test-token"
          [{ id := 1, token := "test-token", userId := 7, lastUsedAt := 95200000 }]).1 =
        .ok { id := 7 } :=
  (cleanup_and_verify_complementary 700000000 700000001
    [{ id := 1, token := "test-token", userId := 7, lastUsedAt := 95200000 }]
    { id := 1, token := "test-token", userId := 7, lastUsedAt := 95200000 }
    (by simp) (by simp)).2.2 (by decide)

/-! ## Statements about basic authentication -/

theorem decoded_colon_password :
    splitColon (toAscii (bufferFromBase64 (substring "Basic dXNlcjFAbWFpbC5jb206UDRzczp3b3Jk" 6)))
      = ["user1@mail.com".data, "P4ss".data, "word".data] := by
  decide

theorem decoded_without_colon :
    splitColon (toAscii (bufferFromBase64 (substring "Basic dXNlcjFAbWFpbC5jb20=" 6)))
      = ["user1@mail.com".data] := by
  decide

/-- C30 (as the code behaves): for the active user `user1@mail.com` whose
stored hash matches the password `P4ss:word`, the header `Basic ` followed by
the base64 encoding of `user1@mail.com:P4ss:word` leaves the request without
authenticated user, because `split(':')` hands `bcrypt.compare` the piece
`P4ss` only; and the header `Basic ` followed by the encoding of
`user1@mail.com` alone makes the middleware fail before it calls `next()`,
because the password piece is `undefined`. -/
theorem basicAuthentication_loses_colon_password (compare : String → String → Bool)
    (hash : String) (_hmatch : compare "P4ss:word" hash = true)
    (hpiece : compare "P4ss" hash = false) :
    basicAuthentication compare (some "Basic dXNlcjFAbWFpbC5jb206UDRzczp3b3Jk")
        [{ id := 1, username := "user1", email := "user1@mail.com", password := hash,
           inactive := false, activationToken := none, passwordResetToken := none,
           image := none }] = .ok none ∧
      basicAuthentication compare (some "Basic dXNlcjFAbWFpbC5jb20=")
        [{ id := 1, username := "user1", email := "user1@mail.com", password := hash,
           inactive := false, activationToken := none, passwordResetToken := none,
           image := none }] = .error .BcryptError := by
  have hl1 : "Basic dXNlcjFAbWFpbC5jb206UDRzczp3b3Jk".length > 6 := by decide
  have hl2 : "Basic dXNlcjFAbWFpbC5jb20=".length > 6 := by decide
  have he : (⟨"user1@mail.com".data⟩ : String) = "user1@mail.com" := rfl
  have hp : (⟨"P4ss".data⟩ : String) = "P4ss" := rfl
  constructor
  · simp only [basicAuthentication, hl1, if_true, decoded_colon_password, List.headD, he,
      List.get?, Option.map, hp]
    simp [findByEmail, hpiece]
  · simp only [basicAuthentication, hl2, if_true, decoded_without_colon, List.headD, he,
      List.get?, Option.map]
    simp [findByEmail]

theorem basicAuthentication_loses_colon_password_witness :
    basicAuthentication (fun p h => decide ("hashed:" ++ p = h))
        (some "Basic dXNlcjFAbWFpbC5jb206UDRzczp3b3Jk")
        [{ id := 1, username := "user1", email := "user1@mail.com",
           password := "hashed:P4ss:word", inactive := false, activationToken := none,
           passwordResetToken := none, image := none }] = .ok none :=
  (basicAuthentication_loses_colon_password (fun p h => decide ("hashed:" ++ p = h))
    "hashed:P4ss:word" (by decide) (by decide)).1

/-- The part of C30 that holds on the same user: with the password `P4ssword`,
which has no colon, the header built from `user1@mail.com:P4ssword` sets the
user as the authenticated user; and a request without the header is passed on
without one. -/
theorem basicAuthentication_plain_password (compare : String → String → Bool)
    (hash : String) (hmatch : compare "P4ssword" hash = true) (users : List UserRow) :
    basicAuthentication compare (some "Basic dXNlcjFAbWFpbC5jb206UDRzc3dvcmQ=")
        [{ id := 1, username := "user1", email := "user1@mail.com", password := hash,
           inactive := false, activationToken := none, passwordResetToken := none,
           image := none }] =
        .ok (some { id := 1, username := "user1", email := "user1@mail.com", password := hash,
                    inactive := false, activationToken := none, passwordResetToken := none,
                    image := none }) ∧
      basicAuthentication compare none users = .ok none := by
  have hl : "Basic dXNlcjFAbWFpbC5jb206UDRzc3dvcmQ=".length > 6 := by decide
  have hd : splitColon (toAscii (bufferFromBase64
      (substring "Basic dXNlcjFAbWFpbC5jb206UDRzc3dvcmQ=" 6)))
      = ["user1@mail.com".data, "P4ssword".data] := by decide
  have he : (⟨"user1@mail.com".data⟩ : String) = "user1@mail.com" := rfl
  have hp : (⟨"P4ssword".data⟩ : String) = "P4ssword" := rfl
  constructor
  · simp only [basicAuthentication, hl, if_true, hd, List.headD, he, List.get?, Option.map, hp]
    simp [findByEmail, hmatch]
  · rfl

end Hoaxify
